import Mathlib

/-!
# Two-car race simulator (`race.c`), leap-year predicate and anagram check

A shallow embedding of `src/C Course/C_Functions&Structs/race.c`, of
`src/C_Functions&Structs/leapYear.c` and of
`src/C_Course/C_Arrays&Strings/anagram.c`, and proofs of properties of them.
The definitions of the three programs come first (namespaces `RaceSim`,
`LeapYear`, `Anagram`), the theorems after them.

Modelling conventions.

* A C `int` is a Lean `Int`; the result of an `int` addition or negation that
  is stored back is passed through `wrapInt` (two's-complement wrap to 32
  bits), so that overflow is visible in the model.
* A `const char*` is an `Option String`: `none` is the null pointer, `some s`
  a pointer to the text `s`.
* A pointer to a struct is an `Option` of the struct's value: `none` is the
  null pointer.  The two cars handed to `startRace` are distinct objects, as in
  `main`; a function that receives non-`const` pointers returns the values of
  all its pointees.
* The outside world is a `World`: the sequence of values that successive calls
  of `rand()` return, the number of calls made so far, and the text written to
  file descriptor 1 so far.
-/

namespace RaceSim

/-! ## Machine integers -/

def INT_MIN : Int := -2147483648

def INT_MAX : Int := 2147483647

/-- The `int` that holds the mathematical value `x` after two's-complement
wrap-around to 32 bits. -/
def wrapInt (x : Int) : Int := (x + 2147483648) % 4294967296 - 2147483648

/-! ## The outside world -/

structure World where
  /-- The value returned by the `i`-th call of `rand()` (counting from 0). -/
  rng : Nat → Nat
  /-- How many calls of `rand()` have been made. -/
  calls : Nat
  /-- Everything written to file descriptor 1, in order. -/
  out : String

/-- The library call `rand()`: returns the next value of the sequence. -/
def rand (w : World) : Nat × World :=
  (w.rng w.calls, { w with calls := w.calls + 1 })

/-! ## I/O helpers -/

/-- Source `my_write`: a null pointer writes nothing, otherwise the text is
appended to the output. -/
def my_write (s : Option String) (w : World) : World :=
  match s with
  | none => w
  | some str => { w with out := w.out ++ str }

/-- The first loop of `my_write_int`: `room` is `sizeof(buf) - i`, the buffer
receives the decimal digits of `n`, least significant first. -/
def fillBuf : Nat → Int → List Char → List Char
  | 0, _, buf => buf
  | room + 1, n, buf =>
    if n > 0 then
      fillBuf room (n / 10) (buf ++ [Char.ofNat (48 + (n % 10).toNat)])
    else buf

/-- Source `my_write_int`. -/
def my_write_int (n : Int) (w : World) : World :=
  if n = 0 then { w with out := w.out ++ "0" }
  else
    let w1 : World := if n < 0 then { w with out := w.out ++ "-" } else w
    let n1 : Int := if n < 0 then wrapInt (-n) else n
    let buf := fillBuf 12 n1 []
    { w1 with out := w1.out ++ String.mk buf.reverse }

/-! ## Structures -/

structure Race where
  numberOfLaps : Int
  currentLap : Int
  firstPlaceDriverName : Option String
  firstPlaceRaceCarColor : Option String

structure RaceCar where
  driverName : Option String
  raceCarColor : Option String
  totalLapTime : Int

/-! ## Print functions -/

def printIntro (w : World) : World :=
  let w := my_write (some "Welcome to our main event digital race fans!\n") w
  my_write (some "I hope everybody has their snacks because we are about to begin!\n\n") w

def printCountDown (w : World) : World :=
  let w := my_write (some "Racers Ready! In...\n") w
  let w := my_write (some "5\n4\n3\n2\n1\n") w
  my_write (some "Race!\n\n") w

def printFirstPlaceAfterLap (race : Race) (w : World) : World :=
  let w := my_write (some "After lap number ") w
  let w := my_write_int race.currentLap w
  let w := my_write (some "\n") w
  let w := my_write (some "First Place Is: ") w
  let w := my_write race.firstPlaceDriverName w
  let w := my_write (some " in the ") w
  let w := my_write race.firstPlaceRaceCarColor w
  my_write (some " race car!\n\n") w

def printCongratulation (race : Race) (w : World) : World :=
  let w := my_write (some "Let's all congratulate ") w
  let w := my_write race.firstPlaceDriverName w
  let w := my_write (some " in the ") w
  let w := my_write race.firstPlaceRaceCarColor w
  let w := my_write (some " race car for an amazing performance.\n") w
  my_write (some "It truly was a great race and everybody have a goodnight!\n") w

/-! ## Logic functions -/

/-- The expression `(r % 3) + 1` applied to a value `r` returned by `rand()`. -/
def oneToThree (r : Nat) : Int := ((r % 3 : Nat) : Int) + 1

/-- Source `calculateTimeToCompleteLap`: three draws, in order. -/
def calculateTimeToCompleteLap (w : World) : Int × World :=
  let (r1, w) := rand w
  let speed := oneToThree r1
  let (r2, w) := rand w
  let acceleration := oneToThree r2
  let (r3, w) := rand w
  let nerves := oneToThree r3
  (speed + acceleration + nerves, w)

/-- Source `updateRaceCar`. -/
def updateRaceCar (w : World) (raceCar : Option RaceCar) : World × Option RaceCar :=
  match raceCar with
  | none => (w, none)
  | some c =>
    let (effort, w) := calculateTimeToCompleteLap w
    (w, some { c with totalLapTime := wrapInt (c.totalLapTime + effort) })

/-- Source `updateFirstPlace`; the result lists the race and the two cars
after the call. -/
def updateFirstPlace (race : Option Race) (a b : Option RaceCar) :
    Option Race × Option RaceCar × Option RaceCar :=
  match race, a, b with
  | some r, some ca, some cb =>
    if ca.totalLapTime ≤ cb.totalLapTime then
      (some { r with firstPlaceDriverName := ca.driverName,
                     firstPlaceRaceCarColor := ca.raceCarColor }, some ca, some cb)
    else
      (some { r with firstPlaceDriverName := cb.driverName,
                     firstPlaceRaceCarColor := cb.raceCarColor }, some ca, some cb)
  | _, _, _ => (race, a, b)

/-! ## Race orchestration -/

/-- What `startRace` works on: its local `race`, the two cars behind the
pointers `a` and `b`, and the world. -/
structure RaceState where
  race : Race
  a : Option RaceCar
  b : Option RaceCar
  w : World

/-- The body of the `for` loop of `startRace`, for loop variable `lap`.  The
pointer `&race` handed to `updateFirstPlace` is never null, so the race after
the call is the one it returns. -/
def lapBody (lap : Int) (s : RaceState) : RaceState :=
  let race : Race := { s.race with currentLap := lap }
  let (w, a) := updateRaceCar s.w s.a
  let (w, b) := updateRaceCar w s.b
  let (race', a, b) := updateFirstPlace (some race) a b
  let race : Race := race'.getD race
  { race := race, a := a, b := b, w := printFirstPlaceAfterLap race w }

/-- The `for` loop of `startRace`, from loop variable `lap` on; `fuel` bounds
the number of iterations. -/
def raceLoop : Nat → Int → RaceState → RaceState
  | 0, _, s => s
  | fuel + 1, lap, s =>
    if lap ≤ s.race.numberOfLaps then
      raceLoop fuel (wrapInt (lap + 1)) (lapBody lap s)
    else s

/-- The states at the end of each executed iteration of the `for` loop, in
order. -/
def raceLoopTrace : Nat → Int → RaceState → List RaceState
  | 0, _, _ => []
  | fuel + 1, lap, s =>
    if lap ≤ s.race.numberOfLaps then
      lapBody lap s :: raceLoopTrace fuel (wrapInt (lap + 1)) (lapBody lap s)
    else []

/-- Everything of `startRace` after the initialisation of its local `race`:
the loop from `lap = 1`, then the congratulation. -/
def startRaceWith (race : Race) (w : World) (a b : Option RaceCar) : RaceState :=
  let s := raceLoop race.numberOfLaps.toNat 1 { race := race, a := a, b := b, w := w }
  { s with w := printCongratulation s.race s.w }

/-- The initial value of the local `race` of `startRace`. -/
def initialRace : Race :=
  { numberOfLaps := 5, currentLap := 1,
    firstPlaceDriverName := some "", firstPlaceRaceCarColor := some "" }

/-- Source `startRace`. -/
def startRace (w : World) (a b : Option RaceCar) : RaceState :=
  startRaceWith initialRace w a b

/-- The states at the end of each lap of `startRace`. -/
def startRaceLaps (w : World) (a b : Option RaceCar) : List RaceState :=
  raceLoopTrace initialRace.numberOfLaps.toNat 1
    { race := initialRace, a := a, b := b, w := w }

def car1 : RaceCar :=
  { driverName := some "George", raceCarColor := some "yellow", totalLapTime := 0 }

def car2 : RaceCar :=
  { driverName := some "Cosmo", raceCarColor := some "orange", totalLapTime := 0 }

/-- Source `main`; `srand` selects the sequence `w.rng`. -/
def main (w : World) : RaceState :=
  let w := printIntro w
  let w := printCountDown w
  startRace w (some car1) (some car2)

/-! ## Vocabulary of the statements -/

/-- The effort that `calculateTimeToCompleteLap` returns when it is called
after `i` earlier calls of `rand()`. -/
def effortAt (rng : Nat → Nat) (i : Nat) : Int :=
  (calculateTimeToCompleteLap { rng := rng, calls := i, out := "" }).1

/-- The sum of the efforts drawn for one car in `k` successive laps, when the
car's draws of the first of these laps start at `rand()` call number `first`:
a lap makes six calls of `rand()`, three per car, so the car's draws of
successive laps are six calls apart. -/
def sumEfforts (rng : Nat → Nat) (first : Nat) : Nat → Int
  | 0 => 0
  | k + 1 => sumEfforts rng first k + effortAt rng (first + 6 * k)

/-- The text of a per-lap report: lap number, leader name and colour, and a
blank line at the end. -/
def lapBlock (lap : Nat) (name colour : Option String) : String :=
  "After lap number " ++ toString lap ++ "\n" ++
  "First Place Is: " ++ name.getD "" ++ " in the " ++ colour.getD "" ++ " race car!\n\n"

/-- The text of the closing congratulation for a leader name and colour. -/
def congratulationBlock (name colour : Option String) : String :=
  "Let's all congratulate " ++ name.getD "" ++ " in the " ++ colour.getD "" ++
  " race car for an amazing performance.\n" ++
  "It truly was a great race and everybody have a goodnight!\n"

/-- A world whose `rand()` returns 0, 1, 2, 3, ... -/
def countingWorld : World := { rng := fun i => i, calls := 0, out := "" }

/-- A world whose `rand()` returns the values of the list `l`, then 0. -/
def listWorld (l : List Nat) : World := { rng := fun i => l.getD i 0, calls := 0, out := "" }

end RaceSim

/-! # Leap-year predicate (`leapYear.c`) -/

namespace LeapYear

/-- Source `leapYear`; the `%` of C on `int` truncates toward zero, which is
`Int.tmod`. -/
def leapYear (year : Int) : Bool :=
  if year.tmod 400 = 0 then true
  else if year.tmod 100 = 0 then false
  else if year.tmod 4 = 0 then true
  else false

/-- Source `main` of `leapYear.c`: the text that `printf("%d\n", (int)leap)`
writes. -/
def main : String :=
  let leap := leapYear 1990
  toString (if leap then (1 : Int) else 0) ++ "\n"

end LeapYear

/-! # Anagram check (`anagram.c`)

A C string is the list of its characters before the terminating NUL. -/

namespace Anagram

/-- An array `int counter[4]`. -/
structure Counters where
  c0 : Int
  c1 : Int
  c2 : Int
  c3 : Int

/-- The element `counter[j]`, for `j` from 0 to 3. -/
def Counters.get (c : Counters) : Nat → Int
  | 0 => c.c0
  | 1 => c.c1
  | 2 => c.c2
  | _ => c.c3

/-- The `if ... else if ...` chain of a counting loop, for the character
`ch`. -/
def countStep (c : Counters) (ch : Char) : Counters :=
  if ch = 'a' then { c with c0 := RaceSim.wrapInt (c.c0 + 1) }
  else if ch = 'b' then { c with c1 := RaceSim.wrapInt (c.c1 + 1) }
  else if ch = 'c' then { c with c2 := RaceSim.wrapInt (c.c2 + 1) }
  else if ch = 'd' then { c with c3 := RaceSim.wrapInt (c.c3 + 1) }
  else c

/-- A counting loop `while (i < n) { ch = s[i]; ...; i++; }`, from index `i`
on; `fuel` bounds the number of iterations.  The index stays below `n`, an
`int`, so `i++` cannot overflow. -/
def countLoop (s : List Char) (n : Int) : Nat → Nat → Counters → Counters
  | 0, _, c => c
  | fuel + 1, i, c =>
    if (i : Int) < n then countLoop s n fuel (i + 1) (countStep c (s.getD i ' '))
    else c

/-- The counting of one string: counters at 0, `n = (int)strlen(s)`, `i = 0`,
then the loop. -/
def countLetters (s : List Char) : Counters :=
  let n : Int := RaceSim.wrapInt (s.length : Int)
  countLoop s n n.toNat 0 ⟨0, 0, 0, 0⟩

/-- The comparing loop `while (j < 4) { if (...) { flag = 1; break; } j++; }`,
from index `j` on with the current `flag`. -/
def compareLoop (counter1 counter2 : Counters) : Nat → Nat → Int → Int
  | 0, _, flag => flag
  | fuel + 1, j, flag =>
    if j < 4 then
      if counter1.get j ≠ counter2.get j then 1
      else compareLoop counter1 counter2 fuel (j + 1) flag
    else flag

/-- The value of `flag` at the end of the comparing loop, for the strings `s1`
and `s2`. -/
def anagramFlag (s1 s2 : List Char) : Int :=
  compareLoop (countLetters s1) (countLetters s2) 4 0 0

/-- The text that the program writes for the strings `s1` and `s2`. -/
def report (s1 s2 : List Char) : String :=
  if anagramFlag s1 s2 = 0 then "Anagram!\n" else "Not Anagram!\n"

def s1 : String := "dbb cccccaacb cdbababdcdcdab dcdad"

def s2 : String := "bbbcc bdddccccad cdbbaaacaccdabdd"

/-- Source `main` of `anagram.c`: the text written. -/
def main : String := report s1.data s2.data

/-- Whether a character is one of the four counted letters. -/
def counted (ch : Char) : Bool := ch = 'a' || ch = 'b' || ch = 'c' || ch = 'd'

/-- The four letter counts of a list of characters, as counters. -/
def countsOf (l : List Char) : Counters :=
  ⟨(l.count 'a' : Nat), (l.count 'b' : Nat), (l.count 'c' : Nat), (l.count 'd' : Nat)⟩

end Anagram

namespace RaceSim

/-! ## Basic facts -/

theorem wrapInt_of_inRange (x : Int) (h1 : INT_MIN ≤ x) (h2 : x ≤ INT_MAX) : wrapInt x = x := by
  unfold wrapInt INT_MIN INT_MAX at *; omega

theorem wrapInt_add_wrapInt (x e : Int) : wrapInt (wrapInt x + e) = wrapInt (x + e) := by
  unfold wrapInt; omega

theorem calculateTimeToCompleteLap_eq (w : World) :
    calculateTimeToCompleteLap w = (effortAt w.rng w.calls, { w with calls := w.calls + 3 }) := rfl

theorem oneToThree_range (r : Nat) : 1 ≤ oneToThree r ∧ oneToThree r ≤ 3 := by
  unfold oneToThree; omega

theorem effortAt_range (rng : Nat → Nat) (i : Nat) : 3 ≤ effortAt rng i ∧ effortAt rng i ≤ 9 := by
  have h1 := oneToThree_range (rng i)
  have h2 := oneToThree_range (rng (i + 1))
  have h3 := oneToThree_range (rng (i + 1 + 1))
  have h : effortAt rng i =
      oneToThree (rng i) + oneToThree (rng (i + 1)) + oneToThree (rng (i + 1 + 1)) := rfl
  omega

@[simp]
theorem my_write_rng (s : Option String) (w : World) : (my_write s w).rng = w.rng := by
  cases s <;> rfl

@[simp]
theorem my_write_calls (s : Option String) (w : World) : (my_write s w).calls = w.calls := by
  cases s <;> rfl

@[simp]
theorem my_write_int_rng (n : Int) (w : World) : (my_write_int n w).rng = w.rng := by
  unfold my_write_int; split_ifs <;> rfl

@[simp]
theorem my_write_int_calls (n : Int) (w : World) : (my_write_int n w).calls = w.calls := by
  unfold my_write_int; split_ifs <;> rfl

@[simp]
theorem printFirstPlaceAfterLap_rng (r : Race) (w : World) :
    (printFirstPlaceAfterLap r w).rng = w.rng := by simp [printFirstPlaceAfterLap]

@[simp]
theorem printFirstPlaceAfterLap_calls (r : Race) (w : World) :
    (printFirstPlaceAfterLap r w).calls = w.calls := by simp [printFirstPlaceAfterLap]

theorem lapBody_some (lap : Int) (s : RaceState) (ca cb : RaceCar)
    (ha : s.a = some ca) (hb : s.b = some cb) :
    lapBody lap s =
      { race :=
          { s.race with
            currentLap := lap
            firstPlaceDriverName :=
              if wrapInt (ca.totalLapTime + effortAt s.w.rng s.w.calls) ≤
                  wrapInt (cb.totalLapTime + effortAt s.w.rng (s.w.calls + 3))
              then ca.driverName else cb.driverName
            firstPlaceRaceCarColor :=
              if wrapInt (ca.totalLapTime + effortAt s.w.rng s.w.calls) ≤
                  wrapInt (cb.totalLapTime + effortAt s.w.rng (s.w.calls + 3))
              then ca.raceCarColor else cb.raceCarColor }
        a := some { ca with
                    totalLapTime := wrapInt (ca.totalLapTime + effortAt s.w.rng s.w.calls) }
        b := some { cb with
                    totalLapTime := wrapInt (cb.totalLapTime + effortAt s.w.rng (s.w.calls + 3)) }
        w := printFirstPlaceAfterLap
          { s.race with
            currentLap := lap
            firstPlaceDriverName :=
              if wrapInt (ca.totalLapTime + effortAt s.w.rng s.w.calls) ≤
                  wrapInt (cb.totalLapTime + effortAt s.w.rng (s.w.calls + 3))
              then ca.driverName else cb.driverName
            firstPlaceRaceCarColor :=
              if wrapInt (ca.totalLapTime + effortAt s.w.rng s.w.calls) ≤
                  wrapInt (cb.totalLapTime + effortAt s.w.rng (s.w.calls + 3))
              then ca.raceCarColor else cb.raceCarColor }
          { s.w with calls := s.w.calls + 6 } } := by
  unfold lapBody updateRaceCar updateFirstPlace
  rw [ha, hb]
  simp only [calculateTimeToCompleteLap_eq]
  split_ifs with h <;> simp [h]

@[simp]
theorem lapBody_numberOfLaps (lap : Int) (s : RaceState) :
    (lapBody lap s).race.numberOfLaps = s.race.numberOfLaps := by
  unfold lapBody updateRaceCar updateFirstPlace
  rcases s with ⟨race, a, b, w⟩
  cases a <;> cases b <;> simp
  split_ifs <;> rfl

@[simp]
theorem lapBody_currentLap (lap : Int) (s : RaceState) :
    (lapBody lap s).race.currentLap = lap := by
  unfold lapBody updateRaceCar updateFirstPlace
  rcases s with ⟨race, a, b, w⟩
  cases a <;> cases b <;> simp
  split_ifs <;> rfl

@[simp]
theorem printCongratulation_calls (r : Race) (w : World) :
    (printCongratulation r w).calls = w.calls := by simp [printCongratulation]

/-! ## What the print functions write -/

theorem my_write_out (t : Option String) (w : World) :
    (my_write t w).out = w.out ++ t.getD "" := by
  cases t with
  | none => simp [my_write]
  | some str => rfl

theorem printCongratulation_out (r : Race) (w : World) :
    (printCongratulation r w).out =
      w.out ++ congratulationBlock r.firstPlaceDriverName r.firstPlaceRaceCarColor := by
  simp [printCongratulation, congratulationBlock, my_write_out, String.append_assoc]

theorem my_write_int_digit (n : Nat) (h0 : 0 < n) (h : n < 10) (w : World) :
    (my_write_int (n : Int) w).out = w.out ++ toString n := by
  interval_cases n <;> rfl

theorem printFirstPlaceAfterLap_out (r : Race) (w : World) (n : Nat) (h0 : 0 < n) (h : n < 10)
    (hn : r.currentLap = (n : Int)) :
    (printFirstPlaceAfterLap r w).out =
      w.out ++ lapBlock n r.firstPlaceDriverName r.firstPlaceRaceCarColor := by
  simp [printFirstPlaceAfterLap, lapBlock, my_write_out, hn, my_write_int_digit n h0 h,
    String.append_assoc]

@[simp]
theorem updateRaceCar_out (w : World) (c : Option RaceCar) :
    (updateRaceCar w c).1.out = w.out := by
  cases c <;> rfl

theorem lapBody_w (lap : Int) (s : RaceState) :
    (lapBody lap s).w = printFirstPlaceAfterLap (lapBody lap s).race
      (updateRaceCar (updateRaceCar s.w s.a).1 s.b).1 := rfl

theorem lapBody_out (n : Nat) (h0 : 0 < n) (h : n < 10) (s : RaceState) :
    (lapBody (n : Int) s).w.out =
      s.w.out ++ lapBlock n (lapBody (n : Int) s).race.firstPlaceDriverName
        (lapBody (n : Int) s).race.firstPlaceRaceCarColor := by
  rw [lapBody_w, printFirstPlaceAfterLap_out _ _ n h0 h (lapBody_currentLap _ _)]
  simp

/-! ## The loop and its trace -/

theorem raceLoop_eq_getLastD (fuel : Nat) : ∀ (lap : Int) (s : RaceState),
    raceLoop fuel lap s = (raceLoopTrace fuel lap s).getLastD s := by
  induction fuel with
  | zero => intro lap s; rfl
  | succ n ih =>
    intro lap s
    unfold raceLoop raceLoopTrace
    split_ifs with h
    · rw [ih]
      cases raceLoopTrace n (wrapInt (lap + 1)) (lapBody lap s) <;> rfl
    · rfl

/-- The fuel `numberOfLaps.toNat` that `startRaceWith` gives the loop is enough:
with it, and with any larger fuel, the loop ends because its condition fails.
(`++lap` cannot overflow unless `numberOfLaps` is `INT_MAX`.) -/
theorem raceLoop_fuel_adequate (fuel : Nat) : ∀ (extra : Nat) (lap : Int) (s : RaceState),
    INT_MIN ≤ lap → s.race.numberOfLaps < INT_MAX →
    lap + (fuel : Int) = s.race.numberOfLaps + 1 →
    raceLoop (fuel + extra) lap s = raceLoop fuel lap s := by
  induction fuel with
  | zero =>
    intro extra lap s _ _ h
    have hc : ¬ lap ≤ s.race.numberOfLaps := by push_cast at h; omega
    cases extra with
    | zero => rfl
    | succ n => simp [raceLoop, hc]
  | succ n ih =>
    intro extra lap s hmin hmax h
    have hc : lap ≤ s.race.numberOfLaps := by push_cast at h; omega
    have hw : wrapInt (lap + 1) = lap + 1 := by
      apply wrapInt_of_inRange
      · omega
      · simp only [INT_MAX] at hmax ⊢; omega
    have hfuel : n + 1 + extra = (n + extra) + 1 := by omega
    rw [hfuel]
    simp only [raceLoop, hc, if_true, hw]
    apply ih
    · omega
    · simpa using hmax
    · rw [lapBody_numberOfLaps]; push_cast at h; omega

theorem sumEfforts_succ_left (rng : Nat → Nat) (first : Nat) (k : Nat) :
    sumEfforts rng first (k + 1) = effortAt rng first + sumEfforts rng (first + 6) k := by
  induction k with
  | zero => simp [sumEfforts]
  | succ n ih =>
    rw [sumEfforts, ih, sumEfforts]
    have h : first + 6 * (n + 1) = first + 6 + 6 * n := by ring
    rw [h]; ring

theorem sumEfforts_bounds (rng : Nat → Nat) (first : Nat) (k : Nat) :
    3 * (k : Int) ≤ sumEfforts rng first k ∧ sumEfforts rng first k ≤ 9 * (k : Int) := by
  induction k with
  | zero => simp [sumEfforts]
  | succ n ih =>
    have h := effortAt_range rng (first + 6 * n)
    rw [sumEfforts]
    push_cast
    omega

/-- The state after the `k + 1`-th executed iteration, when both cars are
present: each car has its identity and the wrapped sum of its efforts, and six
more calls of `rand()` were made per lap. -/
theorem raceLoopTrace_getElem (fuel : Nat) : ∀ (lap : Int) (s : RaceState) (ca cb : RaceCar)
    (k : Nat) (s' : RaceState), s.a = some ca → s.b = some cb →
    (raceLoopTrace fuel lap s)[k]? = some s' →
    s'.a = some { ca with
      totalLapTime := wrapInt (ca.totalLapTime + sumEfforts s.w.rng s.w.calls (k + 1)) } ∧
    s'.b = some { cb with
      totalLapTime := wrapInt (cb.totalLapTime + sumEfforts s.w.rng (s.w.calls + 3) (k + 1)) } ∧
    s'.w.rng = s.w.rng ∧ s'.w.calls = s.w.calls + 6 * (k + 1) := by
  induction fuel with
  | zero => intro lap s ca cb k s' _ _ h; simp [raceLoopTrace] at h
  | succ n ih =>
    intro lap s ca cb k s' ha hb h
    unfold raceLoopTrace at h
    split_ifs at h with hlap
    · have hs := lapBody_some lap s ca cb ha hb
      cases k with
      | zero =>
        simp at h
        subst h
        rw [hs]
        simp [sumEfforts]
      | succ k =>
        simp at h
        obtain ⟨h1, h2, h3, h4⟩ :=
          ih (wrapInt (lap + 1)) (lapBody lap s) _ _ k s' (by rw [hs]) (by rw [hs]) h
        rw [hs] at h1 h2 h3 h4
        simp at h1 h2 h3 h4
        refine ⟨?_, ?_, h3, by omega⟩
        · rw [h1, wrapInt_add_wrapInt, sumEfforts_succ_left _ _ (k + 1), add_assoc]
        · have hc : s.w.calls + 6 + 3 = s.w.calls + 3 + 6 := by ring
          rw [h2, wrapInt_add_wrapInt, sumEfforts_succ_left _ _ (k + 1), add_assoc, hc]
    · simp at h

/-- After every executed iteration with both cars present, the leader fields
are those of the car chosen by the comparison of the two current totals. -/
theorem raceLoopTrace_leader (fuel : Nat) : ∀ (lap : Int) (s : RaceState) (ca cb : RaceCar),
    s.a = some ca → s.b = some cb → ∀ s' ∈ raceLoopTrace fuel lap s,
    ∃ ca' cb', s'.a = some ca' ∧ s'.b = some cb' ∧
      s'.race.firstPlaceDriverName =
        (if ca'.totalLapTime ≤ cb'.totalLapTime then ca'.driverName else cb'.driverName) ∧
      s'.race.firstPlaceRaceCarColor =
        (if ca'.totalLapTime ≤ cb'.totalLapTime then ca'.raceCarColor else cb'.raceCarColor) := by
  induction fuel with
  | zero => intro lap s ca cb _ _ s' h; simp [raceLoopTrace] at h
  | succ n ih =>
    intro lap s ca cb ha hb s' h
    unfold raceLoopTrace at h
    split_ifs at h with hlap
    · have hs := lapBody_some lap s ca cb ha hb
      rcases List.mem_cons.mp h with h | h
      · subst h
        rw [hs]
        exact ⟨_, _, rfl, rfl, rfl, rfl⟩
      · exact ih (wrapInt (lap + 1)) (lapBody lap s) _ _ (by rw [hs]) (by rw [hs]) s' h
    · simp at h

/-! ## The five laps of `startRace` -/

theorem startRaceLaps_eq (w : World) (a b : Option RaceCar) :
    startRaceLaps w a b =
      [ lapBody 1 ⟨initialRace, a, b, w⟩,
        lapBody 2 (lapBody 1 ⟨initialRace, a, b, w⟩),
        lapBody 3 (lapBody 2 (lapBody 1 ⟨initialRace, a, b, w⟩)),
        lapBody 4 (lapBody 3 (lapBody 2 (lapBody 1 ⟨initialRace, a, b, w⟩))),
        lapBody 5 (lapBody 4 (lapBody 3 (lapBody 2 (lapBody 1 ⟨initialRace, a, b, w⟩)))) ] := by
  simp [startRaceLaps, raceLoopTrace, initialRace, wrapInt]

theorem raceLoop_initial (extra : Nat) (w : World) (a b : Option RaceCar) :
    raceLoop (5 + extra) 1 ⟨initialRace, a, b, w⟩ =
      lapBody 5 (lapBody 4 (lapBody 3 (lapBody 2 (lapBody 1 ⟨initialRace, a, b, w⟩)))) := by
  have h : 5 + extra = extra + 1 + 1 + 1 + 1 + 1 := by omega
  rw [h]
  cases extra <;> simp [raceLoop, initialRace, wrapInt]

theorem startRaceLaps_length (w : World) (a b : Option RaceCar) :
    (startRaceLaps w a b).length = 5 := by
  rw [startRaceLaps_eq]; rfl

/-- The state after lap `k + 1` of `startRace` on two present cars. -/
theorem startRaceLaps_getElem (w : World) (a b : RaceCar) (k : Nat) (hk : k < 5) :
    ∃ s, (startRaceLaps w (some a) (some b))[k]? = some s ∧
      s.a = some { a with
      totalLapTime := wrapInt (a.totalLapTime + sumEfforts w.rng w.calls (k + 1)) } ∧
      s.b = some { b with
      totalLapTime := wrapInt (b.totalLapTime + sumEfforts w.rng (w.calls + 3) (k + 1)) } ∧
      s.w.rng = w.rng ∧ s.w.calls = w.calls + 6 * (k + 1) := by
  have hlen : k < (startRaceLaps w (some a) (some b)).length := by
    rw [startRaceLaps_length]; exact hk
  refine ⟨_, List.getElem?_eq_getElem hlen, ?_⟩
  exact raceLoopTrace_getElem _ 1 ⟨initialRace, some a, some b, w⟩ a b k _ rfl rfl
    (List.getElem?_eq_getElem hlen)

/-- The state after lap `k + 1` of `startRace` on two present cars that start
from 0: no addition overflows, each total is the plain sum of the efforts. -/
theorem startRaceLaps_getElem_zero (w : World) (a b : RaceCar) (ha : a.totalLapTime = 0)
    (hb : b.totalLapTime = 0) (k : Nat) (hk : k < 5) :
    ∃ s, (startRaceLaps w (some a) (some b))[k]? = some s ∧
      s.a = some { a with totalLapTime := sumEfforts w.rng w.calls (k + 1) } ∧
      s.b = some { b with totalLapTime := sumEfforts w.rng (w.calls + 3) (k + 1) } := by
  obtain ⟨s, hs, hsa, hsb, -, -⟩ := startRaceLaps_getElem w a b k hk
  have hA := sumEfforts_bounds w.rng w.calls (k + 1)
  have hB := sumEfforts_bounds w.rng (w.calls + 3) (k + 1)
  have hk' : ((k + 1 : Nat) : Int) ≤ 5 := by omega
  refine ⟨s, hs, ?_, ?_⟩
  · rw [hsa, ha, zero_add, wrapInt_of_inRange] <;> simp only [INT_MIN, INT_MAX] <;> omega
  · rw [hsb, hb, zero_add, wrapInt_of_inRange] <;> simp only [INT_MIN, INT_MAX] <;> omega

/-! ## Ranking -/

/-- C1: for every race and every two cars `a` and `b`, `updateFirstPlace`
records `a` as the leader (name and colour) when
`a.totalLapTime <= b.totalLapTime` and `b` otherwise, and leaves everything
else as it was; on equal totals, such as 10 and 10, the leader is `a`. -/
theorem updateFirstPlace_leader (r : Race) (a b : RaceCar) :
    (a.totalLapTime ≤ b.totalLapTime →
      updateFirstPlace (some r) (some a) (some b) =
        (some { r with firstPlaceDriverName := a.driverName
                       firstPlaceRaceCarColor := a.raceCarColor }, some a, some b)) ∧
    (b.totalLapTime < a.totalLapTime →
      updateFirstPlace (some r) (some a) (some b) =
        (some { r with firstPlaceDriverName := b.driverName
                       firstPlaceRaceCarColor := b.raceCarColor }, some a, some b)) ∧
    (a.totalLapTime = b.totalLapTime →
      updateFirstPlace (some r) (some a) (some b) =
        (some { r with firstPlaceDriverName := a.driverName
                       firstPlaceRaceCarColor := a.raceCarColor }, some a, some b)) := by
  refine ⟨fun h => ?_, fun h => ?_, fun h => ?_⟩
  · simp [updateFirstPlace, h]
  · simp [updateFirstPlace, not_le.mpr h]
  · simp [updateFirstPlace, h]

/-- Scenario B: with totals 10 and 10 the leader is the first-listed car. -/
theorem updateFirstPlace_leader_witness :
    updateFirstPlace (some initialRace) (some { car1 with totalLapTime := 10 })
        (some { car2 with totalLapTime := 10 }) =
      (some { initialRace with firstPlaceDriverName := some "George"
                               firstPlaceRaceCarColor := some "yellow" },
        some { car1 with totalLapTime := 10 }, some { car2 with totalLapTime := 10 }) :=
  (updateFirstPlace_leader initialRace { car1 with totalLapTime := 10 }
    { car2 with totalLapTime := 10 }).2.2 rfl

/-! ## Accumulation -/

/-- C2, refuted as stated: a car that starts with `totalLapTime` 2147483647
(`INT_MAX`) and receives the effort 3 (draws 0, 0, 0) in lap 1 holds
-2147483646 after that lap, not 2147483647 + 3. -/
theorem totalLapTime_sum_fails_at_INT_MAX :
    (calculateTimeToCompleteLap (listWorld [])).1 = 3 ∧
    (updateRaceCar (listWorld []) (some { car1 with totalLapTime := 2147483647 })).2 =
      some { car1 with totalLapTime := -2147483646 } ∧
    (∃ s, (startRaceLaps (listWorld []) (some { car1 with totalLapTime := 2147483647 })
        (some car2))[0]? = some s ∧
      s.a = some { car1 with totalLapTime := -2147483646 }) ∧
    (-2147483646 : Int) ≠ 2147483647 + 3 :=
  ⟨rfl, rfl, ⟨_, rfl, rfl⟩, by decide⟩

/-- C2, amended: in lap `k + 1` of `startRace` (`k < 5`) the efforts that
`calculateTimeToCompleteLap` returns for the first and for the second car are
`effortAt` the calls `6 * k` and `3 + 6 * k` after the start, and after that
lap each car holds, as an `int`, its starting `totalLapTime` plus the sum of
the `k + 1` efforts applied to it so far; when that sum is in the range of
`int` the total is exactly the starting total plus the sum, and a car that
starts from 0 holds exactly the sum. -/
theorem startRace_totalLapTime_sum (w : World) (a b : RaceCar) (k : Fin 5) :
    ∃ before s : RaceState,
      ((⟨initialRace, some a, some b, w⟩ : RaceState) ::
        startRaceLaps w (some a) (some b))[k.val]? = some before ∧
      (calculateTimeToCompleteLap before.w).1 = effortAt w.rng (w.calls + 6 * k.val) ∧
      (calculateTimeToCompleteLap (calculateTimeToCompleteLap before.w).2).1 =
        effortAt w.rng (w.calls + 3 + 6 * k.val) ∧
      (startRaceLaps w (some a) (some b))[k.val]? = some s ∧
      s.a = some { a with
        totalLapTime := wrapInt (a.totalLapTime + sumEfforts w.rng w.calls (k.val + 1)) } ∧
      s.b = some { b with
        totalLapTime :=
          wrapInt (b.totalLapTime + sumEfforts w.rng (w.calls + 3) (k.val + 1)) } ∧
      (INT_MIN ≤ a.totalLapTime + sumEfforts w.rng w.calls (k.val + 1) →
        a.totalLapTime + sumEfforts w.rng w.calls (k.val + 1) ≤ INT_MAX →
        s.a = some { a with
          totalLapTime := a.totalLapTime + sumEfforts w.rng w.calls (k.val + 1) }) ∧
      (INT_MIN ≤ b.totalLapTime + sumEfforts w.rng (w.calls + 3) (k.val + 1) →
        b.totalLapTime + sumEfforts w.rng (w.calls + 3) (k.val + 1) ≤ INT_MAX →
        s.b = some { b with
          totalLapTime := b.totalLapTime + sumEfforts w.rng (w.calls + 3) (k.val + 1) }) ∧
      (a.totalLapTime = 0 →
        s.a = some { a with totalLapTime := sumEfforts w.rng w.calls (k.val + 1) }) ∧
      (b.totalLapTime = 0 →
        s.b = some { b with totalLapTime := sumEfforts w.rng (w.calls + 3) (k.val + 1) }) := by
  obtain ⟨k, hk5⟩ := k
  dsimp only
  obtain ⟨s, hs, ha, hb, -, -⟩ := startRaceLaps_getElem w a b k hk5
  have hk : ((k + 1 : Nat) : Int) ≤ 5 := by omega
  have hA := sumEfforts_bounds w.rng w.calls (k + 1)
  have hB := sumEfforts_bounds w.rng (w.calls + 3) (k + 1)
  have hbefore : ∃ before : RaceState,
      ((⟨initialRace, some a, some b, w⟩ : RaceState) ::
        startRaceLaps w (some a) (some b))[k]? = some before ∧
      before.w.rng = w.rng ∧ before.w.calls = w.calls + 6 * k := by
    cases k with
    | zero => exact ⟨_, rfl, rfl, rfl⟩
    | succ j =>
      obtain ⟨s0, hs0, -, -, hr, hc⟩ := startRaceLaps_getElem w a b j (by omega)
      exact ⟨s0, by simpa using hs0, hr, hc⟩
  obtain ⟨before, hbef, hr, hc⟩ := hbefore
  refine ⟨before, s, hbef, ?_, ?_, hs, ha, hb, fun h1 h2 => ?_, fun h1 h2 => ?_, fun h0 => ?_,
    fun h0 => ?_⟩
  · rw [calculateTimeToCompleteLap_eq, hr, hc]
  · rw [calculateTimeToCompleteLap_eq, calculateTimeToCompleteLap_eq, hr, hc]
    show effortAt w.rng (w.calls + 6 * k + 3) = _
    congr 1; omega
  · rw [ha, wrapInt_of_inRange _ h1 h2]
  · rw [hb, wrapInt_of_inRange _ h1 h2]
  · rw [ha, h0, zero_add, wrapInt_of_inRange] <;> simp only [INT_MIN, INT_MAX] <;> omega
  · rw [hb, h0, zero_add, wrapInt_of_inRange] <;> simp only [INT_MIN, INT_MAX] <;> omega

/-- C2 at the race of `main`, lap 3, in `countingWorld`: every lap adds
1 + 2 + 3 = 6 to each car, and no sum leaves the range of `int`. -/
theorem startRace_totalLapTime_sum_witness :
    ∃ s, (startRaceLaps countingWorld (some car1) (some car2))[2]? = some s ∧
      s.a = some { car1 with totalLapTime := 18 } ∧
      s.b = some { car2 with totalLapTime := 18 } := by
  obtain ⟨-, s, -, -, -, hs, -, -, ha, hb, -, -⟩ :=
    startRace_totalLapTime_sum countingWorld car1 car2 2
  exact ⟨s, hs, ha (by decide) (by decide), hb (by decide) (by decide)⟩

/-- C3: after each lap `k + 1` of `startRace` on two cars, both cars are
present with the identity they started with, and the recorded leader name and
colour are both those of the first car when its total is `<=` the other's
(so also on a tie), and both those of the second car when its total is
strictly smaller. -/
theorem startRace_leader_after_each_lap (w : World) (a b : RaceCar) (k : Fin 5) :
    ∃ s ca cb, (startRaceLaps w (some a) (some b))[k.val]? = some s ∧
      s.a = some ca ∧ s.b = some cb ∧
      ca.driverName = a.driverName ∧ ca.raceCarColor = a.raceCarColor ∧
      cb.driverName = b.driverName ∧ cb.raceCarColor = b.raceCarColor ∧
      (ca.totalLapTime ≤ cb.totalLapTime →
        s.race.firstPlaceDriverName = a.driverName ∧
        s.race.firstPlaceRaceCarColor = a.raceCarColor) ∧
      (cb.totalLapTime < ca.totalLapTime →
        s.race.firstPlaceDriverName = b.driverName ∧
        s.race.firstPlaceRaceCarColor = b.raceCarColor) := by
  obtain ⟨s, hs, ha, hb, -, -⟩ := startRaceLaps_getElem w a b k.val k.isLt
  obtain ⟨ca, cb, ha', hb', hn, hc⟩ :=
    raceLoopTrace_leader _ 1 ⟨initialRace, some a, some b, w⟩ a b rfl rfl s
      (List.getElem?_mem hs)
  have hca : ca = { a with
      totalLapTime := wrapInt (a.totalLapTime + sumEfforts w.rng w.calls (k.val + 1)) } :=
    Option.some.inj (ha'.symm.trans ha)
  have hcb : cb = { b with
      totalLapTime := wrapInt (b.totalLapTime + sumEfforts w.rng (w.calls + 3) (k.val + 1)) } :=
    Option.some.inj (hb'.symm.trans hb)
  refine ⟨s, ca, cb, hs, ha', hb', by rw [hca], by rw [hca], by rw [hcb], by rw [hcb],
    fun h => ?_, fun h => ?_⟩
  · rw [hn, hc, if_pos h, if_pos h, hca]; exact ⟨rfl, rfl⟩
  · rw [hn, hc, if_neg (not_le.mpr h), if_neg (not_le.mpr h), hcb]; exact ⟨rfl, rfl⟩

/-- C3 after lap 1 of the race of `main` in `countingWorld`: the draws 0, 1, 2
give George 6 and the draws 3, 4, 5 give Cosmo 6, a tie, and George leads. -/
theorem startRace_leader_after_each_lap_witness :
    ∃ s, (startRaceLaps countingWorld (some car1) (some car2))[0]? = some s ∧
      s.a = some { car1 with totalLapTime := 6 } ∧
      s.b = some { car2 with totalLapTime := 6 } ∧
      s.race.firstPlaceDriverName = some "George" ∧
      s.race.firstPlaceRaceCarColor = some "yellow" := by
  obtain ⟨s, ca, cb, hs, ha, hb, -, -, -, -, hle, -⟩ :=
    startRace_leader_after_each_lap countingWorld car1 car2 0
  have h0 : (startRaceLaps countingWorld (some car1) (some car2))[0]? =
      some (lapBody 1 ⟨initialRace, some car1, some car2, countingWorld⟩) := rfl
  have hs' : s = lapBody 1 ⟨initialRace, some car1, some car2, countingWorld⟩ :=
    Option.some.inj (hs.symm.trans h0)
  have hca : ca = { car1 with totalLapTime := 6 } := by
    apply Option.some.inj; rw [← ha, hs']; rfl
  have hcb : cb = { car2 with totalLapTime := 6 } := by
    apply Option.some.inj; rw [← hb, hs']; rfl
  have hl := hle (by rw [hca, hcb])
  exact ⟨s, hs, by rw [ha, hca], by rw [hb, hcb], hl.1, hl.2⟩

/-! ## The number of laps -/

/-- C4: `startRace` runs the loop body exactly five (`numberOfLaps`) times, for
`lap` = 1, 2, 3, 4, 5 in this order: every iteration is one full cycle (both
cars updated, then `updateFirstPlace`, then the report), the loop stops by its
own condition however much fuel it is given, the congratulation follows the
fifth cycle, `currentLap` takes the values 1, ..., 5 and is `numberOfLaps` at
the end, and with two cars present the five cycles make 30 calls of `rand()`
(three per car and lap). -/
theorem startRace_exactly_numberOfLaps_cycles (w : World) (a b : Option RaceCar) :
    ∃ s1 s2 s3 s4 s5 : RaceState,
      s1 = lapBody 1 ⟨initialRace, a, b, w⟩ ∧ s2 = lapBody 2 s1 ∧ s3 = lapBody 3 s2 ∧
      s4 = lapBody 4 s3 ∧ s5 = lapBody 5 s4 ∧
      startRaceLaps w a b = [s1, s2, s3, s4, s5] ∧
      (∀ extra : Nat, raceLoop (5 + extra) 1 ⟨initialRace, a, b, w⟩ = s5) ∧
      startRace w a b = { s5 with w := printCongratulation s5.race s5.w } ∧
      (startRaceLaps w a b).map (fun s => s.race.currentLap) = [1, 2, 3, 4, 5] ∧
      (startRaceLaps w a b).length = initialRace.numberOfLaps.toNat ∧
      (startRace w a b).race.currentLap = 5 ∧
      (startRace w a b).race.numberOfLaps = 5 ∧
      (∀ ca cb : RaceCar, a = some ca → b = some cb →
        (startRace w a b).w.calls = w.calls + 30) := by
  have hloop := raceLoop_initial 0 w a b
  have hrun : startRace w a b =
      { lapBody 5 (lapBody 4 (lapBody 3 (lapBody 2 (lapBody 1 ⟨initialRace, a, b, w⟩)))) with
        w := printCongratulation
          (lapBody 5 (lapBody 4 (lapBody 3 (lapBody 2
            (lapBody 1 ⟨initialRace, a, b, w⟩))))).race
          (lapBody 5 (lapBody 4 (lapBody 3 (lapBody 2
            (lapBody 1 ⟨initialRace, a, b, w⟩))))).w } := by
    show ({ raceLoop (5 + 0) 1 ⟨initialRace, a, b, w⟩ with
      w := printCongratulation (raceLoop (5 + 0) 1 ⟨initialRace, a, b, w⟩).race
        (raceLoop (5 + 0) 1 ⟨initialRace, a, b, w⟩).w } : RaceState) = _
    rw [hloop]
  refine ⟨_, _, _, _, _, rfl, rfl, rfl, rfl, rfl, startRaceLaps_eq w a b,
    fun extra => raceLoop_initial extra w a b, hrun, ?_, ?_, ?_, ?_, ?_⟩
  · rw [startRaceLaps_eq]; simp
  · rw [startRaceLaps_eq]; rfl
  · rw [hrun]; simp
  · rw [hrun]; simp [initialRace]
  · intro ca cb hca hcb
    subst hca hcb
    obtain ⟨s, hs, -, -, -, hc⟩ := startRaceLaps_getElem w ca cb 4 (by decide)
    rw [startRaceLaps_eq] at hs
    have h5 : s = lapBody 5 (lapBody 4 (lapBody 3 (lapBody 2
        (lapBody 1 ⟨initialRace, some ca, some cb, w⟩)))) := by
      simpa using hs.symm
    rw [hrun, ← h5]
    simpa using hc

/-- C4 at the race of `main` in `countingWorld`: 30 calls of `rand()`. -/
theorem startRace_exactly_numberOfLaps_cycles_witness :
    (startRace countingWorld (some car1) (some car2)).w.calls = 30 := by
  obtain ⟨s1, s2, s3, s4, s5, -, -, -, -, -, -, -, -, -, -, -, -, h⟩ :=
    startRace_exactly_numberOfLaps_cycles countingWorld (some car1) (some car2)
  exact (h car1 car2 rfl rfl).trans rfl

/-! ## The effort of a lap -/

/-- C5: whatever three values `rand()` returns, `speed`, `acceleration` and
`nerves` are each 1, 2 or 3, the effort returned by
`calculateTimeToCompleteLap` is their sum and lies between 3 and 9, three
calls of `rand()` are made, and every value from 3 to 9 is the effort of some
draws. -/
theorem calculateTimeToCompleteLap_range (w : World) :
    (oneToThree (w.rng w.calls) = 1 ∨ oneToThree (w.rng w.calls) = 2 ∨
      oneToThree (w.rng w.calls) = 3) ∧
    (oneToThree (w.rng (w.calls + 1)) = 1 ∨ oneToThree (w.rng (w.calls + 1)) = 2 ∨
      oneToThree (w.rng (w.calls + 1)) = 3) ∧
    (oneToThree (w.rng (w.calls + 2)) = 1 ∨ oneToThree (w.rng (w.calls + 2)) = 2 ∨
      oneToThree (w.rng (w.calls + 2)) = 3) ∧
    (calculateTimeToCompleteLap w).1 =
      oneToThree (w.rng w.calls) + oneToThree (w.rng (w.calls + 1)) +
        oneToThree (w.rng (w.calls + 2)) ∧
    3 ≤ (calculateTimeToCompleteLap w).1 ∧ (calculateTimeToCompleteLap w).1 ≤ 9 ∧
    (calculateTimeToCompleteLap w).2 = { w with calls := w.calls + 3 } ∧
    (∀ v : Int, 3 ≤ v → v ≤ 9 → ∃ w' : World, (calculateTimeToCompleteLap w').1 = v) := by
  have h1 := oneToThree_range (w.rng w.calls)
  have h2 := oneToThree_range (w.rng (w.calls + 1))
  have h3 := oneToThree_range (w.rng (w.calls + 2))
  have hsum : (calculateTimeToCompleteLap w).1 =
      oneToThree (w.rng w.calls) + oneToThree (w.rng (w.calls + 1)) +
        oneToThree (w.rng (w.calls + 2)) := rfl
  refine ⟨by omega, by omega, by omega, hsum, by rw [hsum]; omega, by rw [hsum]; omega, rfl,
    ?_⟩
  intro v hv3 hv9
  have hv : v = 3 ∨ v = 4 ∨ v = 5 ∨ v = 6 ∨ v = 7 ∨ v = 8 ∨ v = 9 := by omega
  rcases hv with h | h | h | h | h | h | h <;> subst h
  · exact ⟨⟨fun i => [0, 0, 0].getD i 0, 0, ""⟩, by decide⟩
  · exact ⟨⟨fun i => [1, 0, 0].getD i 0, 0, ""⟩, by decide⟩
  · exact ⟨⟨fun i => [1, 1, 0].getD i 0, 0, ""⟩, by decide⟩
  · exact ⟨⟨fun i => [1, 1, 1].getD i 0, 0, ""⟩, by decide⟩
  · exact ⟨⟨fun i => [2, 1, 1].getD i 0, 0, ""⟩, by decide⟩
  · exact ⟨⟨fun i => [2, 2, 1].getD i 0, 0, ""⟩, by decide⟩
  · exact ⟨⟨fun i => [2, 2, 2].getD i 0, 0, ""⟩, by decide⟩

/-- C5 in `countingWorld`: the draws 0, 1, 2 give the effort 6, and the
effort 7 is attained by some draws. -/
theorem calculateTimeToCompleteLap_range_witness :
    (calculateTimeToCompleteLap countingWorld).1 = 6 ∧
    ∃ w' : World, (calculateTimeToCompleteLap w').1 = 7 :=
  ⟨(calculateTimeToCompleteLap_range countingWorld).2.2.2.1.trans rfl,
    (calculateTimeToCompleteLap_range countingWorld).2.2.2.2.2.2.2 7 (by decide) (by decide)⟩

/-! ## Scenario A -/

/-- C6 (Scenario A): when the ranking of laps 1 to 5 is made, as `startRace`
makes it (`currentLap` set, then `updateFirstPlace`), on a first car with
totals 3, 5, 9, 12, 15 and a second car with totals 4, 6, 8, 11, 16, the
recorded leader is the first car after lap 1, the second car after lap 3 and
the first car after lap 5. -/
theorem scenarioA_leaders (r0 : Race) (nameA colourA nameB colourB : Option String) :
    ∃ r1 r2 r3 r4 r5 : Race,
      updateFirstPlace (some { r0 with currentLap := 1 })
          (some ⟨nameA, colourA, 3⟩) (some ⟨nameB, colourB, 4⟩) =
        (some r1, some ⟨nameA, colourA, 3⟩, some ⟨nameB, colourB, 4⟩) ∧
      updateFirstPlace (some { r1 with currentLap := 2 })
          (some ⟨nameA, colourA, 5⟩) (some ⟨nameB, colourB, 6⟩) =
        (some r2, some ⟨nameA, colourA, 5⟩, some ⟨nameB, colourB, 6⟩) ∧
      updateFirstPlace (some { r2 with currentLap := 3 })
          (some ⟨nameA, colourA, 9⟩) (some ⟨nameB, colourB, 8⟩) =
        (some r3, some ⟨nameA, colourA, 9⟩, some ⟨nameB, colourB, 8⟩) ∧
      updateFirstPlace (some { r3 with currentLap := 4 })
          (some ⟨nameA, colourA, 12⟩) (some ⟨nameB, colourB, 11⟩) =
        (some r4, some ⟨nameA, colourA, 12⟩, some ⟨nameB, colourB, 11⟩) ∧
      updateFirstPlace (some { r4 with currentLap := 5 })
          (some ⟨nameA, colourA, 15⟩) (some ⟨nameB, colourB, 16⟩) =
        (some r5, some ⟨nameA, colourA, 15⟩, some ⟨nameB, colourB, 16⟩) ∧
      r1.currentLap = 1 ∧ r1.firstPlaceDriverName = nameA ∧
        r1.firstPlaceRaceCarColor = colourA ∧
      r3.currentLap = 3 ∧ r3.firstPlaceDriverName = nameB ∧
        r3.firstPlaceRaceCarColor = colourB ∧
      r5.currentLap = 5 ∧ r5.firstPlaceDriverName = nameA ∧
        r5.firstPlaceRaceCarColor = colourA := by
  refine ⟨_, _, _, _, _, rfl, rfl, rfl, rfl, rfl, ?_⟩
  simp

/-! ## Monotone totals -/

/-- C7: `main` races `car1` and `car2`, which start with `totalLapTime` 0, and
in a race of two cars that start from 0, whatever `rand()` returns, each car's
`totalLapTime` after any lap `k + 1` is at least its `totalLapTime` before
that lap (the states are listed from the one before lap 1 on). -/
theorem totalLapTime_monotone (w : World) (nameA colourA nameB colourB : Option String)
    (k : Fin 5) :
    main w = startRace (printCountDown (printIntro w)) (some car1) (some car2) ∧
    car1.totalLapTime = 0 ∧ car2.totalLapTime = 0 ∧
    ∃ before after : RaceState, ∃ a a' b b' : RaceCar,
      ((⟨initialRace, some ⟨nameA, colourA, 0⟩, some ⟨nameB, colourB, 0⟩, w⟩ : RaceState) ::
        startRaceLaps w (some ⟨nameA, colourA, 0⟩) (some ⟨nameB, colourB, 0⟩))[k.val]? =
          some before ∧
      (startRaceLaps w (some ⟨nameA, colourA, 0⟩) (some ⟨nameB, colourB, 0⟩))[k.val]? =
          some after ∧
      before.a = some a ∧ after.a = some a' ∧ before.b = some b ∧ after.b = some b' ∧
      a.totalLapTime ≤ a'.totalLapTime ∧ b.totalLapTime ≤ b'.totalLapTime := by
  refine ⟨rfl, rfl, rfl, ?_⟩
  obtain ⟨k, hk⟩ := k
  dsimp only
  obtain ⟨s', hs', ha', hb'⟩ :=
    startRaceLaps_getElem_zero w ⟨nameA, colourA, 0⟩ ⟨nameB, colourB, 0⟩ rfl rfl k hk
  cases k with
  | zero =>
    have hA := sumEfforts_bounds w.rng w.calls 1
    have hB := sumEfforts_bounds w.rng (w.calls + 3) 1
    refine ⟨_, s', _, _, _, _, rfl, hs', rfl, ha', rfl, hb', ?_, ?_⟩
    · show (0 : Int) ≤ sumEfforts w.rng w.calls 1
      omega
    · show (0 : Int) ≤ sumEfforts w.rng (w.calls + 3) 1
      omega
  | succ j =>
    obtain ⟨s, hs, ha, hb⟩ :=
      startRaceLaps_getElem_zero w ⟨nameA, colourA, 0⟩ ⟨nameB, colourB, 0⟩ rfl rfl j (by omega)
    have hA := effortAt_range w.rng (w.calls + 6 * (j + 1))
    have hB := effortAt_range w.rng (w.calls + 3 + 6 * (j + 1))
    refine ⟨s, s', _, _, _, _, ?_, hs', ha, ha', hb, hb', ?_, ?_⟩
    · simpa using hs
    · show sumEfforts w.rng w.calls (j + 1) ≤
        sumEfforts w.rng w.calls (j + 1) + effortAt w.rng (w.calls + 6 * (j + 1))
      omega
    · show sumEfforts w.rng (w.calls + 3) (j + 1) ≤
        sumEfforts w.rng (w.calls + 3) (j + 1) + effortAt w.rng (w.calls + 3 + 6 * (j + 1))
      omega

/-! ## The lap count -/

/-- C9: `updateRaceCar` on a missing car returns the world as it was (nothing
drawn, nothing written) and no car; `updateFirstPlace` with a missing race or
a missing car returns the race and both cars exactly as they were. -/
theorem missing_competitor_is_noop :
    (∀ w : World, updateRaceCar w none = (w, none)) ∧
    (∀ (race : Option Race) (a b : Option RaceCar), race = none ∨ a = none ∨ b = none →
      updateFirstPlace race a b = (race, a, b)) := by
  refine ⟨fun _ => rfl, ?_⟩
  intro race a b h
  cases race <;> cases a <;> cases b <;> simp_all [updateFirstPlace]

/-- C9 at the race of `main` with the second car missing. -/
theorem missing_competitor_is_noop_witness :
    updateFirstPlace (some initialRace) (some car1) none = (some initialRace, some car1, none) :=
  missing_competitor_is_noop.2 (some initialRace) (some car1) none (Or.inr (Or.inr rfl))

/-! ## The report -/

/-- C10: the text written by `startRace` is, after what was there before, the
per-lap block of lap 1, 2, 3, 4, 5 in this order, each with the leader name
and colour recorded at the end of that lap and each ending with a blank line,
followed by one congratulation block with the leader recorded at the end of
lap 5; with both cars present, the leader recorded at the end of a lap is the
one chosen by comparing the totals the two cars have after that lap's
updates. -/
theorem startRace_output (w : World) (a b : Option RaceCar) :
    ∃ s1 s2 s3 s4 s5 : RaceState,
      startRaceLaps w a b = [s1, s2, s3, s4, s5] ∧
      (startRace w a b).w.out =
        w.out ++
        lapBlock 1 s1.race.firstPlaceDriverName s1.race.firstPlaceRaceCarColor ++
        lapBlock 2 s2.race.firstPlaceDriverName s2.race.firstPlaceRaceCarColor ++
        lapBlock 3 s3.race.firstPlaceDriverName s3.race.firstPlaceRaceCarColor ++
        lapBlock 4 s4.race.firstPlaceDriverName s4.race.firstPlaceRaceCarColor ++
        lapBlock 5 s5.race.firstPlaceDriverName s5.race.firstPlaceRaceCarColor ++
        congratulationBlock s5.race.firstPlaceDriverName s5.race.firstPlaceRaceCarColor ∧
      (∀ (lap : Nat) (name colour : Option String),
        ∃ body : String, lapBlock lap name colour = body ++ "\n\n") ∧
      (∀ ca cb : RaceCar, a = some ca → b = some cb → ∀ s ∈ [s1, s2, s3, s4, s5],
        ∃ ca' cb' : RaceCar, s.a = some ca' ∧ s.b = some cb' ∧
          s.race.firstPlaceDriverName =
            (if ca'.totalLapTime ≤ cb'.totalLapTime then ca'.driverName
              else cb'.driverName) ∧
          s.race.firstPlaceRaceCarColor =
            (if ca'.totalLapTime ≤ cb'.totalLapTime then ca'.raceCarColor
              else cb'.raceCarColor)) := by
  refine ⟨_, _, _, _, _, startRaceLaps_eq w a b, ?_, ?_, ?_⟩
  · have hrun : (startRace w a b).w =
        printCongratulation (raceLoop (5 + 0) 1 ⟨initialRace, a, b, w⟩).race
          (raceLoop (5 + 0) 1 ⟨initialRace, a, b, w⟩).w := rfl
    rw [hrun, raceLoop_initial 0 w a b, printCongratulation_out]
    have e1 := lapBody_out 1 (by decide) (by decide) ⟨initialRace, a, b, w⟩
    have e2 := lapBody_out 2 (by decide) (by decide) (lapBody 1 ⟨initialRace, a, b, w⟩)
    have e3 := lapBody_out 3 (by decide) (by decide)
      (lapBody 2 (lapBody 1 ⟨initialRace, a, b, w⟩))
    have e4 := lapBody_out 4 (by decide) (by decide)
      (lapBody 3 (lapBody 2 (lapBody 1 ⟨initialRace, a, b, w⟩)))
    have e5 := lapBody_out 5 (by decide) (by decide)
      (lapBody 4 (lapBody 3 (lapBody 2 (lapBody 1 ⟨initialRace, a, b, w⟩))))
    simp only [Nat.cast_ofNat, Nat.cast_one] at e1 e2 e3 e4 e5
    rw [e5, e4, e3, e2, e1]
  · intro lap name colour
    have hend : " race car!\n\n" = " race car!" ++ "\n\n" := by decide
    refine ⟨"After lap number " ++ toString lap ++ "\n" ++ "First Place Is: " ++
      name.getD "" ++ " in the " ++ colour.getD "" ++ " race car!", ?_⟩
    rw [lapBlock, hend, ← String.append_assoc]
  · intro ca cb hca hcb s hs
    subst hca hcb
    rw [← startRaceLaps_eq] at hs
    exact raceLoopTrace_leader _ 1 ⟨initialRace, some ca, some cb, w⟩ ca cb rfl rfl s hs

set_option maxRecDepth 20000 in
/-- C10 at the race of `main` in `countingWorld`, where every lap adds 6 to
each car and George leads on the tie: after each of the five laps both cars
are present, and the text is the five blocks and the congratulation. -/
theorem startRace_output_witness :
    (∀ s ∈ startRaceLaps countingWorld (some car1) (some car2),
      ∃ ca' cb' : RaceCar, s.a = some ca' ∧ s.b = some cb') ∧
    (startRace countingWorld (some car1) (some car2)).w.out =
      "After lap number 1\nFirst Place Is: George in the yellow race car!\n\n" ++
      "After lap number 2\nFirst Place Is: George in the yellow race car!\n\n" ++
      "After lap number 3\nFirst Place Is: George in the yellow race car!\n\n" ++
      "After lap number 4\nFirst Place Is: George in the yellow race car!\n\n" ++
      "After lap number 5\nFirst Place Is: George in the yellow race car!\n\n" ++
      "Let's all congratulate George in the yellow race car for an amazing performance.\n" ++
      "It truly was a great race and everybody have a goodnight!\n" := by
  obtain ⟨s1, s2, s3, s4, s5, hlaps, -, -, hlead⟩ :=
    startRace_output countingWorld (some car1) (some car2)
  refine ⟨fun s hs => ?_, by rfl⟩
  rw [hlaps] at hs
  obtain ⟨ca', cb', ha, hb, -, -⟩ := hlead car1 car2 rfl rfl s hs
  exact ⟨ca', cb', ha, hb⟩

/-! ## Ranking twice, and what ranking leaves alone -/

/-- C11: for every race and cars `a` and `b` (present or missing), calling
`updateFirstPlace` again on what a first call left gives the same race, with
the same leader name and colour, and the same cars; so does any number of
further calls. -/
theorem updateFirstPlace_idempotent (race : Option Race) (a b : Option RaceCar) :
    updateFirstPlace (updateFirstPlace race a b).1 (updateFirstPlace race a b).2.1
        (updateFirstPlace race a b).2.2 = updateFirstPlace race a b ∧
    ∀ n : Nat,
      (fun t : Option Race × Option RaceCar × Option RaceCar =>
          updateFirstPlace t.1 t.2.1 t.2.2)^[n + 1] (race, a, b) =
        updateFirstPlace race a b := by
  have h1 : updateFirstPlace (updateFirstPlace race a b).1 (updateFirstPlace race a b).2.1
      (updateFirstPlace race a b).2.2 = updateFirstPlace race a b := by
    cases race <;> cases a <;> cases b <;> simp [updateFirstPlace]
    split_ifs with h <;> simp [h]
  refine ⟨h1, fun n => ?_⟩
  induction n with
  | zero => rfl
  | succ k ih => rw [Function.iterate_succ_apply', ih]; exact h1

/-- C12: `updateFirstPlace` returns both cars exactly as they were passed
(name, colour and total), and the race it returns differs from the one passed
at most in the two leader fields: `numberOfLaps` and `currentLap` are
unchanged, and a missing race stays missing. -/
theorem updateFirstPlace_frame (race : Option Race) (a b : Option RaceCar) :
    (updateFirstPlace race a b).2.1 = a ∧ (updateFirstPlace race a b).2.2 = b ∧
    (updateFirstPlace race a b).1.map (fun r => r.numberOfLaps) =
      race.map (fun r => r.numberOfLaps) ∧
    (updateFirstPlace race a b).1.map (fun r => r.currentLap) =
      race.map (fun r => r.currentLap) ∧
    ∀ r : Race, race = some r →
      ∃ name colour : Option String, (updateFirstPlace race a b).1 =
        some { r with firstPlaceDriverName := name, firstPlaceRaceCarColor := colour } := by
  cases race <;> cases a <;> cases b <;> simp [updateFirstPlace]
  all_goals first
    | exact ⟨_, _, rfl⟩
    | (split_ifs <;> simp)

/-- C12 at the race of `main` with totals 7 and 4: the cars are returned as
passed, the race has the leader fields of the second car and nothing else
changed. -/
theorem updateFirstPlace_frame_witness :
    ∃ name colour : Option String,
      (updateFirstPlace (some initialRace) (some { car1 with totalLapTime := 7 })
          (some { car2 with totalLapTime := 4 })).1 =
        some { initialRace with firstPlaceDriverName := name
                                firstPlaceRaceCarColor := colour } :=
  (updateFirstPlace_frame (some initialRace) (some { car1 with totalLapTime := 7 })
    (some { car2 with totalLapTime := 4 })).2.2.2.2 initialRace rfl

/-- The state that `startRace` returns is the state after lap 5 with the
congratulation written. -/
theorem startRace_final (w : World) (a b : Option RaceCar) :
    ∃ s5, (startRaceLaps w a b)[4]? = some s5 ∧
      startRace w a b = { s5 with w := printCongratulation s5.race s5.w } := by
  refine ⟨lapBody 5 (lapBody 4 (lapBody 3 (lapBody 2 (lapBody 1 ⟨initialRace, a, b, w⟩)))),
    by rw [startRaceLaps_eq]; rfl, ?_⟩
  show ({ raceLoop (5 + 0) 1 ⟨initialRace, a, b, w⟩ with
    w := printCongratulation (raceLoop (5 + 0) 1 ⟨initialRace, a, b, w⟩).race
      (raceLoop (5 + 0) 1 ⟨initialRace, a, b, w⟩).w } : RaceState) = _
  rw [raceLoop_initial 0 w a b]

/-- The state before lap `k + 1` of `startRace` on two present cars that start
from 0 (the state after lap `k`, or the initial state). -/
theorem startRaceLaps_before_zero (w : World) (a b : RaceCar) (ha : a.totalLapTime = 0)
    (hb : b.totalLapTime = 0) (k : Nat) (hk : k < 5) :
    ∃ s, ((⟨initialRace, some a, some b, w⟩ : RaceState) ::
        startRaceLaps w (some a) (some b))[k]? = some s ∧
      s.a = some { a with totalLapTime := sumEfforts w.rng w.calls k } ∧
      s.b = some { b with totalLapTime := sumEfforts w.rng (w.calls + 3) k } ∧
      s.w.rng = w.rng ∧ s.w.calls = w.calls + 6 * k := by
  cases k with
  | zero =>
    refine ⟨_, rfl, ?_, ?_, rfl, rfl⟩
    · show some a = some { a with totalLapTime := 0 }
      rw [← ha]
    · show some b = some { b with totalLapTime := 0 }
      rw [← hb]
  | succ j =>
    obtain ⟨s, hs, hsa, hsb⟩ := startRaceLaps_getElem_zero w a b ha hb j (by omega)
    obtain ⟨s', hs', -, -, hr, hc⟩ := startRaceLaps_getElem w a b j (by omega)
    have hss : s' = s := Option.some.inj (hs'.symm.trans hs)
    subst hss
    exact ⟨s', by simpa using hs, hsa, hsb, hr, hc⟩

/-! ## Identity of the cars -/

/-- C13: `updateRaceCar` changes only `totalLapTime`; after every lap of
`startRace` and in the state that `startRace` returns, each car has the
`driverName` and `raceCarColor` it was created with; and within a lap each
car's new value is `updateRaceCar` of its own old value, whatever happens to
the other car. -/
theorem car_identity_immutable (w : World) (a b : RaceCar) :
    (∃ t : Int, (updateRaceCar w (some a)).2 = some { a with totalLapTime := t }) ∧
    (∀ k : Fin 5, ∃ (s : RaceState) (ta tb : Int),
      (startRaceLaps w (some a) (some b))[k.val]? = some s ∧
      s.a = some { a with totalLapTime := ta } ∧ s.b = some { b with totalLapTime := tb }) ∧
    (∃ ta tb : Int,
      (startRace w (some a) (some b)).a = some { a with totalLapTime := ta } ∧
      (startRace w (some a) (some b)).b = some { b with totalLapTime := tb }) ∧
    (∀ (lap : Int) (s : RaceState),
      (lapBody lap s).a = (updateRaceCar s.w s.a).2 ∧
      (lapBody lap s).b = (updateRaceCar (updateRaceCar s.w s.a).1 s.b).2) ∧
    (∀ (lap : Int) (race : Race),
      (lapBody lap ⟨race, some a, none, w⟩).a = (updateRaceCar w (some a)).2 ∧
      (lapBody lap ⟨race, some a, none, w⟩).b = none ∧
      (lapBody lap ⟨race, none, some b, w⟩).a = none ∧
      (lapBody lap ⟨race, none, some b, w⟩).b = (updateRaceCar w (some b)).2) := by
  refine ⟨⟨_, rfl⟩, fun k => ?_, ?_, ?_, fun lap race => ⟨rfl, rfl, rfl, rfl⟩⟩
  · obtain ⟨s, hs, ha, hb, -, -⟩ := startRaceLaps_getElem w a b k.val k.isLt
    exact ⟨s, _, _, hs, ha, hb⟩
  · obtain ⟨s, hs, ha, hb, -, -⟩ := startRaceLaps_getElem w a b 4 (by decide)
    obtain ⟨s5, hs5, hrun⟩ := startRace_final w (some a) (some b)
    have h : s5 = s := Option.some.inj (hs5.symm.trans hs)
    subst h
    rw [hrun]
    exact ⟨_, _, ha, hb⟩
  · intro lap s
    rcases s with ⟨race, sa, sb, sw⟩
    cases sa <;> cases sb <;> simp [lapBody, updateRaceCar, updateFirstPlace]
    split_ifs <;> simp

/-! ## The order of the two updates -/

/-- C14: when the draws give car `a` the effort `ea` and car `b` the effort
`eb` in either order of the two updates (in world `w1`, `a` is updated first;
in world `w2`, `b` is updated first), the two orders leave the same two cars,
namely `a` with `ea` added and `b` with `eb` added, and `updateFirstPlace`
records the same leader for both. -/
theorem updates_commute (w1 w2 : World) (a b : RaceCar) (ea eb : Int) (race : Option Race)
    (h1a : effortAt w1.rng w1.calls = ea) (h1b : effortAt w1.rng (w1.calls + 3) = eb)
    (h2b : effortAt w2.rng w2.calls = eb) (h2a : effortAt w2.rng (w2.calls + 3) = ea) :
    (updateRaceCar w1 (some a)).2 = some { a with totalLapTime := wrapInt (a.totalLapTime + ea) } ∧
    (updateRaceCar (updateRaceCar w1 (some a)).1 (some b)).2 =
      some { b with totalLapTime := wrapInt (b.totalLapTime + eb) } ∧
    (updateRaceCar w2 (some b)).2 = some { b with totalLapTime := wrapInt (b.totalLapTime + eb) } ∧
    (updateRaceCar (updateRaceCar w2 (some b)).1 (some a)).2 =
      some { a with totalLapTime := wrapInt (a.totalLapTime + ea) } ∧
    updateFirstPlace race (updateRaceCar w1 (some a)).2
        (updateRaceCar (updateRaceCar w1 (some a)).1 (some b)).2 =
      updateFirstPlace race (updateRaceCar (updateRaceCar w2 (some b)).1 (some a)).2
        (updateRaceCar w2 (some b)).2 := by
  have e1 : (updateRaceCar w1 (some a)).2 =
      some { a with totalLapTime := wrapInt (a.totalLapTime + ea) } := by
    rw [← h1a]; rfl
  have e2 : (updateRaceCar (updateRaceCar w1 (some a)).1 (some b)).2 =
      some { b with totalLapTime := wrapInt (b.totalLapTime + eb) } := by
    rw [← h1b]; rfl
  have e3 : (updateRaceCar w2 (some b)).2 =
      some { b with totalLapTime := wrapInt (b.totalLapTime + eb) } := by
    rw [← h2b]; rfl
  have e4 : (updateRaceCar (updateRaceCar w2 (some b)).1 (some a)).2 =
      some { a with totalLapTime := wrapInt (a.totalLapTime + ea) } := by
    rw [← h2a]; rfl
  exact ⟨e1, e2, e3, e4, by rw [e1, e2, e3, e4]⟩

/-- C14 for the cars of `main`, with the effort 3 for George (draws 0, 0, 0)
and 9 for Cosmo (draws 2, 2, 2), drawn in the two orders. -/
theorem updates_commute_witness :
    updateFirstPlace (some initialRace)
        (updateRaceCar (listWorld [0, 0, 0, 2, 2, 2]) (some car1)).2
        (updateRaceCar (updateRaceCar (listWorld [0, 0, 0, 2, 2, 2]) (some car1)).1
          (some car2)).2 =
      updateFirstPlace (some initialRace)
        (updateRaceCar (updateRaceCar (listWorld [2, 2, 2, 0, 0, 0]) (some car2)).1
          (some car1)).2
        (updateRaceCar (listWorld [2, 2, 2, 0, 0, 0]) (some car2)).2 :=
  (updates_commute (listWorld [0, 0, 0, 2, 2, 2]) (listWorld [2, 2, 2, 0, 0, 0]) car1 car2 3 9
    (some initialRace) (by decide) (by decide) (by decide) (by decide)).2.2.2.2

/-! ## Calls of the random source -/

/-- C15, refuted as stated: in the race of `main` the first lap makes six calls
of `rand()`, not two, and the whole of `startRace` makes 30, not 10. -/
theorem rand_calls_not_two_per_lap :
    (startRaceLaps countingWorld (some car1) (some car2)).map (fun s => s.w.calls) =
      [6, 12, 18, 24, 30] ∧
    (startRace countingWorld (some car1) (some car2)).w.calls = 30 ∧
    (startRace countingWorld (some car1) (some car2)).w.calls ≠ countingWorld.calls + 2 * 5 := by
  refine ⟨by rfl, by rfl, by decide⟩

/-- C15, amended: `calculateTimeToCompleteLap` makes three calls of `rand()`,
each turned into an integer from 1 to 3; in every lap of `startRace` on two
cars it is called once per car, so the lap makes six calls of `rand()`, and
the whole of `startRace` makes 30. -/
theorem rand_calls_six_per_lap (w : World) (a b : RaceCar) (k : Fin 5) :
    (calculateTimeToCompleteLap w).2.calls = w.calls + 3 ∧
    (calculateTimeToCompleteLap w).1 =
      oneToThree (w.rng w.calls) + oneToThree (w.rng (w.calls + 1)) +
        oneToThree (w.rng (w.calls + 2)) ∧
    (∃ before after : RaceState,
      ((⟨initialRace, some a, some b, w⟩ : RaceState) ::
        startRaceLaps w (some a) (some b))[k.val]? = some before ∧
      (startRaceLaps w (some a) (some b))[k.val]? = some after ∧
      after.w.calls =
        (calculateTimeToCompleteLap (calculateTimeToCompleteLap before.w).2).2.calls ∧
      after.w.calls = before.w.calls + 6 ∧
      after.w.calls = w.calls + 6 * (k.val + 1)) ∧
    (startRace w (some a) (some b)).w.calls = w.calls + 30 := by
  refine ⟨rfl, rfl, ?_, ?_⟩
  · obtain ⟨k, hk⟩ := k
    dsimp only
    obtain ⟨after, hafter, -, -, -, hc⟩ := startRaceLaps_getElem w a b k hk
    have hbefore : ∃ before : RaceState,
        ((⟨initialRace, some a, some b, w⟩ : RaceState) ::
          startRaceLaps w (some a) (some b))[k]? = some before ∧
        before.w.calls = w.calls + 6 * k := by
      cases k with
      | zero => exact ⟨_, rfl, rfl⟩
      | succ j =>
        obtain ⟨s0, hs0, -, -, -, hc0⟩ := startRaceLaps_getElem w a b j (by omega)
        exact ⟨s0, by simpa using hs0, hc0⟩
    obtain ⟨before, hbef, hcb⟩ := hbefore
    refine ⟨before, after, hbef, hafter, ?_, ?_, hc⟩
    · show after.w.calls = before.w.calls + 3 + 3
      omega
    · omega
  · obtain ⟨s, hs, -, -, -, hc⟩ := startRaceLaps_getElem w a b 4 (by decide)
    obtain ⟨s5, hs5, hrun⟩ := startRace_final w (some a) (some b)
    have h : s5 = s := Option.some.inj (hs5.symm.trans hs)
    subst h
    rw [hrun]
    simpa using hc

/-! ## Bounds of the totals in the race of `main` -/

/-- C16: in the race of `main` (both totals 0), whatever `rand()` returns,
after lap `k + 1` each total lies between `3 * (k + 1)` and `9 * (k + 1)`, the
addition made in that lap does not overflow (the new total is the old total
plus the effort, as integers, within the range of `int`), each total is
strictly greater than before the lap, and in the state that `main` returns
each total lies between 15 and 45. -/
theorem main_totals_bounded (w : World) (k : Fin 5) :
    (∃ (before after : RaceState) (a a' b b' : RaceCar),
      ((⟨initialRace, some car1, some car2, w⟩ : RaceState) ::
        startRaceLaps w (some car1) (some car2))[k.val]? = some before ∧
      (startRaceLaps w (some car1) (some car2))[k.val]? = some after ∧
      before.a = some a ∧ after.a = some a' ∧ before.b = some b ∧ after.b = some b' ∧
      3 * ((k.val : Int) + 1) ≤ a'.totalLapTime ∧ a'.totalLapTime ≤ 9 * ((k.val : Int) + 1) ∧
      3 * ((k.val : Int) + 1) ≤ b'.totalLapTime ∧ b'.totalLapTime ≤ 9 * ((k.val : Int) + 1) ∧
      a'.totalLapTime = a.totalLapTime + (calculateTimeToCompleteLap before.w).1 ∧
      b'.totalLapTime = b.totalLapTime +
        (calculateTimeToCompleteLap (calculateTimeToCompleteLap before.w).2).1 ∧
      INT_MIN ≤ a.totalLapTime + (calculateTimeToCompleteLap before.w).1 ∧
      a.totalLapTime + (calculateTimeToCompleteLap before.w).1 ≤ INT_MAX ∧
      INT_MIN ≤ b.totalLapTime +
        (calculateTimeToCompleteLap (calculateTimeToCompleteLap before.w).2).1 ∧
      b.totalLapTime +
        (calculateTimeToCompleteLap (calculateTimeToCompleteLap before.w).2).1 ≤ INT_MAX ∧
      a.totalLapTime < a'.totalLapTime ∧ b.totalLapTime < b'.totalLapTime) ∧
    (∃ a5 b5 : RaceCar, (main w).a = some a5 ∧ (main w).b = some b5 ∧
      15 ≤ a5.totalLapTime ∧ a5.totalLapTime ≤ 45 ∧
      15 ≤ b5.totalLapTime ∧ b5.totalLapTime ≤ 45) := by
  constructor
  · obtain ⟨k, hk⟩ := k
    dsimp only
    obtain ⟨before, hbef, hba, hbb, hr, hc⟩ :=
      startRaceLaps_before_zero w car1 car2 rfl rfl k hk
    obtain ⟨after, haft, haa, hab⟩ := startRaceLaps_getElem_zero w car1 car2 rfl rfl k hk
    have hA := sumEfforts_bounds w.rng w.calls k
    have hB := sumEfforts_bounds w.rng (w.calls + 3) k
    have hA' := sumEfforts_bounds w.rng w.calls (k + 1)
    have hB' := sumEfforts_bounds w.rng (w.calls + 3) (k + 1)
    have heA := effortAt_range w.rng (w.calls + 6 * k)
    have heB := effortAt_range w.rng (w.calls + 3 + 6 * k)
    have hcA : (calculateTimeToCompleteLap before.w).1 = effortAt w.rng (w.calls + 6 * k) := by
      rw [calculateTimeToCompleteLap_eq, hr, hc]
    have hcB : (calculateTimeToCompleteLap (calculateTimeToCompleteLap before.w).2).1 =
        effortAt w.rng (w.calls + 3 + 6 * k) := by
      rw [calculateTimeToCompleteLap_eq, calculateTimeToCompleteLap_eq, hr, hc]
      show effortAt w.rng (w.calls + 6 * k + 3) = _
      congr 1; omega
    refine ⟨before, after, _, _, _, _, hbef, haft, hba, haa, hbb, hab, ?_⟩
    rw [hcA, hcB]
    simp only [INT_MIN, INT_MAX]
    have hsA : sumEfforts w.rng w.calls (k + 1) =
        sumEfforts w.rng w.calls k + effortAt w.rng (w.calls + 6 * k) := rfl
    have hsB : sumEfforts w.rng (w.calls + 3) (k + 1) =
        sumEfforts w.rng (w.calls + 3) k + effortAt w.rng (w.calls + 3 + 6 * k) := rfl
    push_cast at hA' hB'
    refine ⟨?_, ?_, ?_, ?_, hsA, hsB, ?_, ?_, ?_, ?_, ?_, ?_⟩ <;> omega
  · obtain ⟨s, hs, ha, hb⟩ :=
      startRaceLaps_getElem_zero (printCountDown (printIntro w)) car1 car2 rfl rfl 4 (by decide)
    obtain ⟨s5, hs5, hrun⟩ :=
      startRace_final (printCountDown (printIntro w)) (some car1) (some car2)
    have h : s5 = s := Option.some.inj (hs5.symm.trans hs)
    subst h
    have hA := sumEfforts_bounds (printCountDown (printIntro w)).rng
      (printCountDown (printIntro w)).calls 5
    have hB := sumEfforts_bounds (printCountDown (printIntro w)).rng
      ((printCountDown (printIntro w)).calls + 3) 5
    have hmain : main w = startRace (printCountDown (printIntro w)) (some car1) (some car2) :=
      rfl
    rw [hmain, hrun]
    refine ⟨_, _, ha, hb, ?_, ?_, ?_, ?_⟩ <;>
      first
        | (show (15 : Int) ≤ sumEfforts _ _ 5; omega)
        | (show sumEfforts _ _ 5 ≤ (45 : Int); omega)

/-! ## Writing an `int` -/

theorem ofNat_add_eq_digitChar (d : Nat) (h : d < 10) : Char.ofNat (48 + d) = Nat.digitChar d := by
  interval_cases d <;> rfl

/-- The buffer filled by the first loop of `my_write_int` holds the decimal
digits of the number, least significant first, when the room is enough. -/
theorem fillBuf_eq_digits (room : Nat) : ∀ (m : Nat) (buf : List Char), m < 10 ^ room →
    fillBuf room (m : Int) buf = buf ++ (Nat.digits 10 m).map Nat.digitChar := by
  induction room with
  | zero =>
    intro m buf h
    have h0 : m = 0 := by omega
    subst h0
    simp [fillBuf]
  | succ r ih =>
    intro m buf h
    rcases Nat.eq_zero_or_pos m with h0 | hpos
    · subst h0
      simp [fillBuf]
    · have hgt : (m : Int) > 0 := by exact_mod_cast hpos
      have hdiv : (m : Int) / 10 = ((m / 10 : Nat) : Int) := by norm_cast
      have hmod : ((m : Int) % 10).toNat = m % 10 := by omega
      have hlt : m / 10 < 10 ^ r := by
        rw [Nat.div_lt_iff_lt_mul (by decide)]
        rw [pow_succ] at h
        exact h
      rw [fillBuf, if_pos hgt, hdiv, hmod, ih (m / 10) _ hlt,
        Nat.digits_def' (by decide) hpos, ofNat_add_eq_digitChar _ (Nat.mod_lt _ (by decide))]
      simp

theorem toDigitsCore_eq_digits (fuel : Nat) : ∀ (m : Nat) (ds : List Char), 0 < m → m < fuel →
    Nat.toDigitsCore 10 fuel m ds = ((Nat.digits 10 m).map Nat.digitChar).reverse ++ ds := by
  induction fuel with
  | zero => intro m ds _ h; omega
  | succ f ih =>
    intro m ds hpos hlt
    rw [Nat.toDigitsCore, Nat.digits_def' (by decide) hpos]
    by_cases h0 : m / 10 = 0
    · simp [h0]
    · have hp : 0 < m / 10 := Nat.pos_of_ne_zero h0
      have hl : m / 10 < f := by omega
      simp [h0, ih (m / 10) _ hp hl]

theorem toString_eq_digits (m : Nat) (hpos : 0 < m) :
    toString m = String.mk ((Nat.digits 10 m).map Nat.digitChar).reverse := by
  show (Nat.toDigits 10 m).asString = _
  rw [Nat.toDigits, toDigitsCore_eq_digits (m + 1) m [] hpos (by omega)]
  simp [List.asString]

theorem my_write_int_pos (w : World) (m : Nat) (hpos : 0 < m) (hm : (m : Int) ≤ INT_MAX) :
    my_write_int (m : Int) w = { w with out := w.out ++ toString m } := by
  have hne : ¬ (m : Int) = 0 := by omega
  have hnn : ¬ (m : Int) < 0 := by omega
  have hlt : m < 10 ^ 12 := by simp only [INT_MAX] at hm; omega
  simp only [my_write_int, if_neg hne, if_neg hnn]
  rw [fillBuf_eq_digits 12 m [] hlt, toString_eq_digits m hpos]
  simp

theorem digits_length_le_ten (m : Nat) (hm : (m : Int) ≤ INT_MAX) :
    (Nat.digits 10 m).length ≤ 10 := by
  rcases Nat.eq_zero_or_pos m with h0 | hpos
  · subst h0; simp
  · by_contra hlen
    have h11 : 11 ≤ (Nat.digits 10 m).length := by omega
    have h1 := Nat.base_pow_length_digits_le 10 m (by decide) (by omega)
    have h2 : 10 ^ 11 ≤ 10 ^ (Nat.digits 10 m).length := Nat.pow_le_pow_right (by decide) h11
    simp only [INT_MAX] at hm
    omega

/-- C19: for every `int` `n` with `0 <= n <= INT_MAX`, `my_write_int(n)`
appends to the output exactly the decimal text of `n` (for `n > 0` its decimal
digits, most significant first and so without a leading zero; `0` for 0); for
every negative `n > INT_MIN` it appends `-` and then the decimal text of `-n`;
and the buffer bound `i < 12` never cuts a digit: at most 10 digits are stored,
and any larger buffer gives the same digits. -/
theorem my_write_int_decimal (w : World) (n : Int) :
    (0 ≤ n → n ≤ INT_MAX →
      my_write_int n w = { w with out := w.out ++ toString n.toNat }) ∧
    (INT_MIN < n → n < 0 →
      my_write_int n w = { w with out := w.out ++ "-" ++ toString (-n).toNat }) ∧
    (0 < n → n ≤ INT_MAX →
      toString n.toNat = String.mk ((Nat.digits 10 n.toNat).reverse.map Nat.digitChar) ∧
      (Nat.digits 10 n.toNat).reverse.head? ≠ some 0) ∧
    toString (0 : Int).toNat = "0" ∧
    (INT_MIN < n → n ≤ INT_MAX →
      (fillBuf 12 (if n < 0 then wrapInt (-n) else n) []).length ≤ 10 ∧
      ∀ extra : Nat, fillBuf (12 + extra) (if n < 0 then wrapInt (-n) else n) [] =
        fillBuf 12 (if n < 0 then wrapInt (-n) else n) []) := by
  refine ⟨fun h0 hmax => ?_, fun hmin hneg => ?_, fun hpos hmax => ?_, by decide,
    fun hmin hmax => ?_⟩
  · obtain ⟨m, rfl⟩ := Int.eq_ofNat_of_zero_le h0
    rcases Nat.eq_zero_or_pos m with hm | hm
    · subst hm
      have h0' : toString (0 : Nat) = "0" := by decide
      simp [my_write_int, h0']
    · rw [Int.toNat_natCast]; exact my_write_int_pos w m hm hmax
  · obtain ⟨m, hm⟩ := Int.eq_ofNat_of_zero_le (show 0 ≤ -n by omega)
    have hn : n = -(m : Int) := by omega
    subst hn
    have hmpos : 0 < m := by omega
    have hmmax : (m : Int) ≤ INT_MAX := by simp only [INT_MIN] at hmin; simp only [INT_MAX]; omega
    have hne : ¬ (-(m : Int)) = 0 := by omega
    have hw : wrapInt (- -(m : Int)) = (m : Int) := by
      rw [neg_neg]; apply wrapInt_of_inRange
      · simp only [INT_MIN]; omega
      · exact hmmax
    have hlt : m < 10 ^ 12 := by simp only [INT_MAX] at hmmax; omega
    rw [neg_neg] at hw
    simp only [my_write_int, if_neg hne, if_pos hneg, neg_neg, hw, Int.toNat_natCast]
    rw [fillBuf_eq_digits 12 m [] hlt, toString_eq_digits m hmpos]
    simp
  · obtain ⟨m, rfl⟩ := Int.eq_ofNat_of_zero_le (le_of_lt hpos)
    have hm : 0 < m := by omega
    rw [Int.toNat_natCast]
    refine ⟨by rw [toString_eq_digits m hm, List.map_reverse], ?_⟩
    have hne : Nat.digits 10 m ≠ [] := Nat.digits_ne_nil_iff_ne_zero.mpr (by omega)
    have hlast := Nat.getLast_digit_ne_zero 10 (m := m) (by omega)
    rw [List.head?_reverse, List.getLast?_eq_getLast _ hne]
    intro h
    exact hlast (Option.some.inj h)
  · have key : ∀ m : Nat, (m : Int) ≤ INT_MAX →
        (fillBuf 12 (m : Int) []).length ≤ 10 ∧
        ∀ extra : Nat, fillBuf (12 + extra) (m : Int) [] = fillBuf 12 (m : Int) [] := by
      intro m hm
      have hlt : m < 10 ^ 12 := by simp only [INT_MAX] at hm; omega
      have hlt' : ∀ extra : Nat, m < 10 ^ (12 + extra) := fun extra =>
        lt_of_lt_of_le hlt (Nat.pow_le_pow_right (by decide) (by omega))
      refine ⟨?_, fun extra => ?_⟩
      · rw [fillBuf_eq_digits 12 m [] hlt]
        simpa using digits_length_le_ten m hm
      · rw [fillBuf_eq_digits 12 m [] hlt, fillBuf_eq_digits (12 + extra) m [] (hlt' extra)]
    by_cases hneg : n < 0
    · obtain ⟨m, hm⟩ := Int.eq_ofNat_of_zero_le (show 0 ≤ -n by omega)
      have hmmax : (m : Int) ≤ INT_MAX := by
        simp only [INT_MIN] at hmin; simp only [INT_MAX]; omega
      have hw : wrapInt (-n) = (m : Int) := by
        rw [hm]; apply wrapInt_of_inRange
        · simp only [INT_MIN]; omega
        · exact hmmax
      rw [if_pos hneg, hw]
      exact key m hmmax
    · obtain ⟨m, rfl⟩ := Int.eq_ofNat_of_zero_le (show 0 ≤ n by omega)
      rw [if_neg hneg]
      exact key m hmax

/-- C19 at `INT_MAX` and at `-2147483647`. -/
theorem my_write_int_decimal_witness :
    (my_write_int 2147483647 countingWorld).out = "2147483647" ∧
    (my_write_int (-2147483647) countingWorld).out = "-2147483647" :=
  ⟨(congrArg World.out
      ((my_write_int_decimal countingWorld 2147483647).1 (by decide) (by decide))).trans
      (by decide),
    (congrArg World.out
      ((my_write_int_decimal countingWorld (-2147483647)).2.1 (by decide) (by decide))).trans
      (by decide)⟩

end RaceSim

/-! # Facts about `leapYear.c` -/

namespace LeapYear

/-- C17: for every `int` year, zero and negative years included, `leapYear`
is true exactly when the year is divisible by 400, or by 4 and not by 100;
`leapYear(1990)` is false and `main` writes `0`. -/
theorem leapYear_gregorian (year : Int) :
    (leapYear year = true ↔ (400 ∣ year ∨ (4 ∣ year ∧ ¬ 100 ∣ year))) ∧
    leapYear 1990 = false ∧ main = "0\n" := by
  refine ⟨?_, by decide, by decide⟩
  have h400 : year.tmod 400 = 0 ↔ (400 : Int) ∣ year :=
    ⟨Int.dvd_of_tmod_eq_zero, Int.tmod_eq_zero_of_dvd⟩
  have h100 : year.tmod 100 = 0 ↔ (100 : Int) ∣ year :=
    ⟨Int.dvd_of_tmod_eq_zero, Int.tmod_eq_zero_of_dvd⟩
  have h4 : year.tmod 4 = 0 ↔ (4 : Int) ∣ year :=
    ⟨Int.dvd_of_tmod_eq_zero, Int.tmod_eq_zero_of_dvd⟩
  unfold leapYear
  by_cases d400 : year.tmod 400 = 0
  · simp [d400, h400.mp d400]
  · have n400 : ¬ (400 : Int) ∣ year := fun h => d400 (h400.mpr h)
    by_cases d100 : year.tmod 100 = 0
    · simp [d400, d100, n400, h100.mp d100]
    · have n100 : ¬ (100 : Int) ∣ year := fun h => d100 (h100.mpr h)
      simp [d400, d100, n400, n100, h4]

end LeapYear

/-! # Facts about `anagram.c` -/

namespace Anagram

open RaceSim (wrapInt INT_MIN INT_MAX wrapInt_of_inRange)

theorem countStep_eq (c : Counters) (ch : Char) (i : Nat) (hi : (i : Int) < INT_MAX)
    (h0 : 0 ≤ c.c0 ∧ c.c0 ≤ i) (h1 : 0 ≤ c.c1 ∧ c.c1 ≤ i) (h2 : 0 ≤ c.c2 ∧ c.c2 ≤ i)
    (h3 : 0 ≤ c.c3 ∧ c.c3 ≤ i) :
    countStep c ch =
      ⟨c.c0 + ([ch].count 'a' : Nat), c.c1 + ([ch].count 'b' : Nat),
        c.c2 + ([ch].count 'c' : Nat), c.c3 + ([ch].count 'd' : Nat)⟩ := by
  have w0 : wrapInt (c.c0 + 1) = c.c0 + 1 := by
    apply wrapInt_of_inRange <;> simp only [INT_MIN, INT_MAX] at * <;> omega
  have w1 : wrapInt (c.c1 + 1) = c.c1 + 1 := by
    apply wrapInt_of_inRange <;> simp only [INT_MIN, INT_MAX] at * <;> omega
  have w2 : wrapInt (c.c2 + 1) = c.c2 + 1 := by
    apply wrapInt_of_inRange <;> simp only [INT_MIN, INT_MAX] at * <;> omega
  have w3 : wrapInt (c.c3 + 1) = c.c3 + 1 := by
    apply wrapInt_of_inRange <;> simp only [INT_MIN, INT_MAX] at * <;> omega
  unfold countStep
  by_cases ha : ch = 'a'
  · subst ha; simp [w0]
  · by_cases hb : ch = 'b'
    · subst hb; simp [w1]
    · by_cases hc : ch = 'c'
      · subst hc; simp [w2]
      · by_cases hd : ch = 'd'
        · subst hd; simp [w3]
        · simp [ha, hb, hc, hd, List.count_cons]

/-- From index `i` on, with the bound `n = strlen(s)` within the range of
`int`, the counting loop adds to each counter the number of occurrences of its
letter in the rest of the string. -/
theorem countLoop_eq (s : List Char) (hs : (s.length : Int) ≤ INT_MAX) (fuel : Nat) :
    ∀ (i : Nat) (c : Counters), i + fuel = s.length →
      (0 ≤ c.c0 ∧ c.c0 ≤ i) → (0 ≤ c.c1 ∧ c.c1 ≤ i) → (0 ≤ c.c2 ∧ c.c2 ≤ i) →
      (0 ≤ c.c3 ∧ c.c3 ≤ i) →
      countLoop s (s.length : Int) fuel i c =
        ⟨c.c0 + ((s.drop i).count 'a' : Nat), c.c1 + ((s.drop i).count 'b' : Nat),
          c.c2 + ((s.drop i).count 'c' : Nat), c.c3 + ((s.drop i).count 'd' : Nat)⟩ := by
  induction fuel with
  | zero =>
    intro i c hi _ _ _ _
    have : s.drop i = [] := List.drop_eq_nil_of_le (by omega)
    simp [countLoop, this]
  | succ f ih =>
    intro i c hi h0 h1 h2 h3
    have hlt : i < s.length := by omega
    have hcond : (i : Int) < (s.length : Int) := by exact_mod_cast hlt
    have himax : (i : Int) < INT_MAX := lt_of_lt_of_le hcond hs
    have hget : s.getD i ' ' = s[i] := by
      rw [List.getD_eq_getElem?_getD, List.getElem?_eq_getElem hlt]; rfl
    have hdrop : s.drop i = s[i] :: s.drop (i + 1) := List.drop_eq_getElem_cons hlt
    have hstep := countStep_eq c s[i] i himax h0 h1 h2 h3
    have hb : ∀ x : Char, (([s[i]].count x : Nat) : Int) ≤ 1 := by
      intro x
      have := List.count_le_length (a := x) (l := [s[i]])
      simp only [List.length_singleton] at this
      exact_mod_cast this
    have hb0 := hb 'a'
    have hb1 := hb 'b'
    have hb2 := hb 'c'
    have hb3 := hb 'd'
    rw [countLoop, if_pos hcond, hget, hstep, ih (i + 1) _ (by omega)
      (by constructor <;> push_cast <;> omega) (by constructor <;> push_cast <;> omega)
      (by constructor <;> push_cast <;> omega) (by constructor <;> push_cast <;> omega), hdrop]
    have hc : ∀ x : Char, (((s[i] :: s.drop (i + 1)).count x : Nat) : Int) =
        (([s[i]].count x : Nat) : Int) + (((s.drop (i + 1)).count x : Nat) : Int) := by
      intro x
      have : (s[i] :: s.drop (i + 1)).count x = [s[i]].count x + (s.drop (i + 1)).count x := by
        rw [← List.count_append]; rfl
      exact_mod_cast this
    rw [hc 'a', hc 'b', hc 'c', hc 'd']
    simp only [add_assoc]

theorem countLetters_eq (s : List Char) (hs : (s.length : Int) ≤ INT_MAX) :
    countLetters s = countsOf s := by
  have hw : wrapInt (s.length : Int) = (s.length : Int) := by
    apply wrapInt_of_inRange
    · simp only [INT_MIN]; omega
    · exact hs
  unfold countLetters
  simp only [hw, Int.toNat_natCast]
  rw [countLoop_eq s hs s.length 0 ⟨0, 0, 0, 0⟩ (by omega) (by simp) (by simp) (by simp) (by simp)]
  simp [countsOf]

/-- The comparing loop with its four iterations written out. -/
theorem compareLoop_four (c1 c2 : Counters) :
    compareLoop c1 c2 4 0 0 =
      if c1.c0 ≠ c2.c0 then 1 else if c1.c1 ≠ c2.c1 then 1
      else if c1.c2 ≠ c2.c2 then 1 else if c1.c3 ≠ c2.c3 then 1 else 0 := rfl

/-- More fuel than the four iterations changes nothing: the comparing loop
ends by `break` or because `j < 4` fails. -/
theorem compareLoop_fuel_adequate (c1 c2 : Counters) (extra : Nat) :
    compareLoop c1 c2 (4 + extra) 0 0 = compareLoop c1 c2 4 0 0 := by
  have h : 4 + extra = extra + 1 + 1 + 1 + 1 := by omega
  rw [h]
  cases extra <;> rfl

theorem anagramFlag_eq_zero_iff (s1 s2 : List Char) :
    anagramFlag s1 s2 = 0 ↔
      (countLetters s1).c0 = (countLetters s2).c0 ∧ (countLetters s1).c1 = (countLetters s2).c1 ∧
      (countLetters s1).c2 = (countLetters s2).c2 ∧
      (countLetters s1).c3 = (countLetters s2).c3 := by
  unfold anagramFlag
  rw [compareLoop_four]
  generalize countLetters s1 = c1
  generalize countLetters s2 = c2
  by_cases h0 : c1.c0 = c2.c0
  · by_cases h1 : c1.c1 = c2.c1
    · by_cases h2 : c1.c2 = c2.c2
      · by_cases h3 : c1.c3 = c2.c3
        · simp [h0, h1, h2, h3]
        · simp [h0, h1, h2, h3]
      · simp [h0, h1, h2]
    · simp [h0, h1]
  · simp [h0]

theorem count_filter_counted (l : List Char) (ch : Char) :
    (l.filter counted).count ch = if counted ch then l.count ch else 0 := by
  by_cases h : counted ch = true
  · rw [if_pos h, List.count_filter h]
  · rw [if_neg h, List.count_eq_zero]
    intro hmem
    exact h (List.mem_filter.mp hmem).2

theorem perm_filter_counted_iff (l1 l2 : List Char) :
    (l1.filter counted).Perm (l2.filter counted) ↔
      l1.count 'a' = l2.count 'a' ∧ l1.count 'b' = l2.count 'b' ∧
      l1.count 'c' = l2.count 'c' ∧ l1.count 'd' = l2.count 'd' := by
  rw [List.perm_iff_count]
  constructor
  · intro h
    have ha := h 'a'
    have hb := h 'b'
    have hc := h 'c'
    have hd := h 'd'
    simp only [count_filter_counted] at ha hb hc hd
    exact ⟨by simpa [counted] using ha, by simpa [counted] using hb,
      by simpa [counted] using hc, by simpa [counted] using hd⟩
  · rintro ⟨ha, hb, hc, hd⟩ ch
    simp only [count_filter_counted]
    by_cases h : counted ch = true
    · rw [if_pos h, if_pos h]
      simp only [counted, Bool.or_eq_true, decide_eq_true_eq] at h
      rcases h with ((h | h) | h) | h <;> subst h <;> assumption
    · rw [if_neg h, if_neg h]

/-- Once the index has reached the bound within the fuel, more fuel changes
nothing: the counting loop ends because its condition fails. -/
theorem countLoop_fuel_adequate (s : List Char) (n : Int) (fuel : Nat) :
    ∀ (extra i : Nat) (c : Counters), n ≤ (i : Int) + fuel →
      countLoop s n (fuel + extra) i c = countLoop s n fuel i c := by
  induction fuel with
  | zero =>
    intro extra i c h
    have hc : ¬ (i : Int) < n := by push_cast at h; omega
    cases extra with
    | zero => rfl
    | succ e => simp [countLoop, hc]
  | succ f ih =>
    intro extra i c h
    have hf : f + 1 + extra = (f + extra) + 1 := by omega
    rw [hf, countLoop, countLoop]
    split_ifs with hc
    · exact ih extra (i + 1) _ (by push_cast at h ⊢; omega)
    · rfl

/-! ## The anagram check -/

/-- C18, refuted as stated: for a first string of 2147483648 letters `a`, whose
length does not fit an `int`, and an empty second string, the bound
`(int)strlen(s1)` is negative, nothing is counted and the program reports
`Anagram!`, although the numbers of `a` differ. -/
theorem anagram_long_string_miscounted :
    report (List.replicate 2147483648 'a') [] = "Anagram!\n" ∧
    (List.replicate 2147483648 'a').count 'a' ≠ ([] : List Char).count 'a' := by
  have hc : countLetters (List.replicate 2147483648 'a') = ⟨0, 0, 0, 0⟩ := by
    have hn : wrapInt ((List.replicate 2147483648 'a').length : Int) = -2147483648 := by
      rw [List.length_replicate]; rfl
    unfold countLetters
    simp only [hn]
    rfl
  have hflag : anagramFlag (List.replicate 2147483648 'a') [] = 0 := by
    rw [anagramFlag_eq_zero_iff, hc]
    exact ⟨rfl, rfl, rfl, rfl⟩
  refine ⟨by rw [report, if_pos hflag], ?_⟩
  rw [List.count_replicate_self]
  decide

/-- C18, amended: for strings `s1` and `s2` whose lengths fit an `int`, the
program reports `Anagram!` exactly when `flag` is 0 at the end, which holds
exactly when each of the letters `a`, `b`, `c`, `d` occurs as often in `s1` as
in `s2`, that is, exactly when the two strings restricted to these four
letters are permutations of each other; for the two strings of the program
the report is `Anagram!`. -/
theorem anagram_report_iff (s1 s2 : List Char) (h1 : (s1.length : Int) ≤ INT_MAX)
    (h2 : (s2.length : Int) ≤ INT_MAX) :
    (report s1 s2 = "Anagram!\n" ↔ anagramFlag s1 s2 = 0) ∧
    (anagramFlag s1 s2 = 0 ↔
      s1.count 'a' = s2.count 'a' ∧ s1.count 'b' = s2.count 'b' ∧
      s1.count 'c' = s2.count 'c' ∧ s1.count 'd' = s2.count 'd') ∧
    (anagramFlag s1 s2 = 0 ↔ (s1.filter counted).Perm (s2.filter counted)) ∧
    main = "Anagram!\n" := by
  have hne : ¬ ("Not Anagram!\n" = "Anagram!\n") := by decide
  have hflag : anagramFlag s1 s2 = 0 ↔
      s1.count 'a' = s2.count 'a' ∧ s1.count 'b' = s2.count 'b' ∧
      s1.count 'c' = s2.count 'c' ∧ s1.count 'd' = s2.count 'd' := by
    rw [anagramFlag_eq_zero_iff, countLetters_eq s1 h1, countLetters_eq s2 h2]
    simp [countsOf]
  refine ⟨?_, hflag, by rw [hflag, perm_filter_counted_iff], by decide⟩
  unfold report
  split_ifs with h
  · simp [h]
  · simp [h, hne]

/-- C18 amended, at the two strings of the program. -/
theorem anagram_report_iff_witness :
    (s1.data.filter counted).Perm (s2.data.filter counted) :=
  (anagram_report_iff s1.data s2.data (by decide) (by decide)).2.2.1.mp (by decide)

end Anagram
